import Mathlib

/-! RocketSim ball subsystem (`src/Sim/Ball/Ball.cpp`)

A shallow embedding of `BallState` and `Ball` with the operations of `Ball.cpp`,
in exact arithmetic over an ordered field `F` (the C++ `float`), followed by the
properties proved about them. The post-tick stabilization is given a second time in
`float` arithmetic (`f32`, `Ball._FinishPhysicsTickF32`), every operation followed by the
rounding to binary32, to show where exact arithmetic and the `float` code part ways.

What `Ball.cpp` uses but does not define is a parameter of the embedding:

* the constants of `RLConst.h` are the fields of `RLConst`;
* the square root behind `btVector3::length` and `Vec::Length`, and the `Angle`
  helpers (`Angle::FromVec`, `operator-`, `NormalizeFix`, `GetForwardVec`) are the
  fields of `MathOps`;
* the ordered field list `BALLSTATE_SERIALIZATION_FIELDS` is a list of `StateField`.
-/

namespace RocketSim

/-! ## Vectors -/

/-- Three floats: stands for both `Vec` and `btVector3`, which convert into each other. -/
structure Vec (F : Type) where
  x : F
  y : F
  z : F
deriving DecidableEq

namespace Vec

variable {F : Type}

/-- The vector `{ 0,0,0 }`. -/
def zero [Zero F] : Vec F := ⟨0, 0, 0⟩

/-- Componentwise `operator+`. -/
def add [Add F] (a b : Vec F) : Vec F := ⟨a.x + b.x, a.y + b.y, a.z + b.z⟩

/-- Componentwise `operator-`. -/
def sub [Sub F] (a b : Vec F) : Vec F := ⟨a.x - b.x, a.y - b.y, a.z - b.z⟩

/-- Vector times scalar, `v * s`. -/
def scale [Mul F] (v : Vec F) (s : F) : Vec F := ⟨v.x * s, v.y * s, v.z * s⟩

/-- Vector divided by scalar, `v / s`. -/
def divScalar [Div F] (v : Vec F) (s : F) : Vec F := ⟨v.x / s, v.y / s, v.z / s⟩

/-- Modelled from the spec: `Vec::IsZero`, true when every component compares equal to 0. -/
def IsZero [Zero F] [DecidableEq F] (v : Vec F) : Bool :=
  decide (v.x = 0) && decide (v.y = 0) && decide (v.z = 0)

/-- Squared length, `btVector3::length2` and `Vec::LengthSq`: the dot product with itself. -/
def length2 [Add F] [Mul F] (v : Vec F) : F := v.x * v.x + v.y * v.y + v.z * v.z

/-- Modelled from the spec: `Vec::DistSq`, the squared distance between two vectors. -/
def DistSq [Add F] [Sub F] [Mul F] (a b : Vec F) : F := length2 (sub a b)

/-- Length, `btVector3::length` and `Vec::Length`: the square root of the squared length. -/
def length [Add F] [Mul F] (sqrt : F → F) (v : Vec F) : F := sqrt (length2 v)

/-- Unit vector `btVector3::normalized`: the vector divided by its length. -/
def normalized [Add F] [Mul F] [Div F] (sqrt : F → F) (v : Vec F) : Vec F :=
  divScalar v (length sqrt v)

/-- The method `btVector3::normalized` with its division checked: `none` when the length,
the divisor, is 0. -/
def normalizedChecked [Add F] [Mul F] [Div F] [Zero F] [DecidableEq F] (sqrt : F → F)
    (v : Vec F) : Option (Vec F) :=
  if length sqrt v = 0 then none else some (divScalar v (length sqrt v))

end Vec

/-! ## Rounding -/

section Rounding

variable {F : Type} [LinearOrderedField F] [FloorRing F]

/-- The C function `roundf`: nearest integer, halfway cases away from zero. -/
def roundf (x : F) : F :=
  if 0 ≤ x then ((⌊x + 1 / 2⌋ : ℤ) : F) else ((⌈x - 1 / 2⌉ : ℤ) : F)

/-- Modelled from the spec: `Math::RoundVec`, `round(v / p) * p` on each component. -/
def RoundVec (v : Vec F) (precision : F) : Vec F :=
  ⟨roundf (v.x / precision) * precision,
   roundf (v.y / precision) * precision,
   roundf (v.z / precision) * precision⟩

end Rounding

/-! ## Constants and configuration -/

/-- Constants of the namespace `RLConst::Heatseeker` that `Ball.cpp` reads. -/
structure HeatseekerConst (F : Type) where
  TARGET_SPEED_INCREMENT : F
  MIN_SPEEDUP_INTERVAL : F
  TARGET_Y : F
  TARGET_Z : F
  HORIZONTAL_BLEND : F
  VERTICAL_BLEND : F
  SPEED_BLEND : F
  MAX_TURN_PITCH : F
  MAX_SPEED : F
  WALL_BOUNCE_CHANGE_NORMAL_Y : F

/-- Constants of `RLConst.h` that `Ball.cpp` reads. -/
structure RLConst (F : Type) where
  UU_TO_BT : F
  BT_TO_UU : F
  BALL_MAX_ANG_SPEED : F
  Heatseeker : HeatseekerConst F

/-- The fields of `MutatorConfig` read by the tick pipeline. -/
structure MutatorConfig (F : Type) where
  ballMaxSpeed : F
  enablePhysicsRounding : Bool

/-- Game modes; only `HEATSEEKER` is told apart by `Ball.cpp`. -/
inductive GameMode where
  | SOCCAR
  | HOOPS
  | HEATSEEKER
  | SNOWDAY
deriving DecidableEq

/-- The two teams. -/
inductive Team where
  | BLUE
  | ORANGE
deriving DecidableEq

/-- Of a `Car` the ball reads the team only. -/
structure Car where
  team : Team
deriving DecidableEq

/-- Yaw, pitch and roll of an `Angle`. -/
structure Angle (F : Type) where
  yaw : F
  pitch : F
  roll : F
deriving DecidableEq

/-- Math helpers used by `Ball.cpp` and defined elsewhere. -/
structure MathOps (F : Type) where
  /-- Square root, behind `length` and `Length`. -/
  sqrt : F → F
  /-- The function `Angle::FromVec`. -/
  FromVec : Vec F → Angle F
  /-- The difference `Angle::operator-`. -/
  angleSub : Angle F → Angle F → Angle F
  /-- The method `Angle::NormalizeFix`. -/
  NormalizeFix : Angle F → Angle F
  /-- The method `Angle::GetForwardVec`. -/
  GetForwardVec : Angle F → Vec F

/-- The macro `RS_MIN(a, b)`, `((a < b) ? a : b)`. -/
def RS_MIN {F : Type} [LT F] [DecidableRel (fun a b : F => a < b)] (a b : F) : F :=
  if a < b then a else b

/-- The macro `RS_MAX(a, b)`, `((a > b) ? a : b)`. -/
def RS_MAX {F : Type} [LT F] [DecidableRel (fun a b : F => a < b)] (a b : F) : F :=
  if b < a then a else b

/-- The macro `RS_CLAMP(val, min, max)`, `RS_MIN(RS_MAX(val, min), max)`. -/
def RS_CLAMP {F : Type} [LT F] [DecidableRel (fun a b : F => a < b)] (val lo hi : F) : F :=
  RS_MIN (RS_MAX val lo) hi

/-! ## BallState -/

/-- The struct `BallState::HeatseekerInfo`. -/
structure HeatseekerInfo (F : Type) where
  yTargetDir : F
  curTargetSpeed : F
  timeSinceHit : F
deriving DecidableEq

/-- Well-formed homing sub-state: `yTargetDir` is -1, 0 or 1 and `curTargetSpeed` is at
most `maxSpeed` (the constant `Heatseeker::MAX_SPEED`). -/
def HeatseekerInfo.WellFormed {F : Type} [LinearOrderedField F] (maxSpeed : F)
    (hs : HeatseekerInfo F) : Prop :=
  (hs.yTargetDir = -1 ∨ hs.yTargetDir = 0 ∨ hs.yTargetDir = 1) ∧ hs.curTargetSpeed ≤ maxSpeed

/-- The struct `BallState`. -/
structure BallState (F : Type) where
  pos : Vec F
  vel : Vec F
  angVel : Vec F
  hsInfo : HeatseekerInfo F
deriving DecidableEq

/-- The method `BallState::Matches`. -/
def BallState.Matches {F : Type} [LinearOrderedField F] (self other : BallState F)
    (marginPos marginVel marginAngVel : F) : Bool :=
  decide (Vec.DistSq self.pos other.pos < marginPos * marginPos) &&
  decide (Vec.DistSq self.vel other.vel < marginVel * marginVel) &&
  decide (Vec.DistSq self.angVel other.angVel < marginAngVel * marginAngVel)

/-! ## The engine body and the ball -/

/-- A `btTransform`: the rows of its rotation matrix and its origin. -/
structure btTransform (F : Type) where
  m_basis : Vec F × Vec F × Vec F
  m_origin : Vec F
deriving DecidableEq

/-- The result of `btTransform::setIdentity`. -/
def btTransform.identity {F : Type} [Zero F] [One F] : btTransform F :=
  ⟨(⟨1, 0, 0⟩, ⟨0, 1, 0⟩, ⟨0, 0, 1⟩), ⟨0, 0, 0⟩⟩

/-- The fields of the `btRigidBody` that `Ball.cpp` reads or writes after setup. -/
structure btRigidBody (F : Type) where
  m_worldTransform : btTransform F
  m_linearVelocity : Vec F
  m_angularVelocity : Vec F
deriving DecidableEq

/-- The class `Ball`: cached state, engine body and pending impulse. -/
structure Ball (F : Type) where
  _internalState : BallState F
  _rigidBody : btRigidBody F
  _velocityImpulseCache : Vec F
deriving DecidableEq

namespace Ball

variable {F : Type} [LinearOrderedField F]

/-- The method `Ball::GetState`: the returned state and the ball with its cache refreshed. -/
def GetState (K : RLConst F) (self : Ball F) : BallState F × Ball F :=
  let st : BallState F :=
    { self._internalState with
      pos := Vec.scale self._rigidBody.m_worldTransform.m_origin K.BT_TO_UU
      vel := Vec.scale self._rigidBody.m_linearVelocity K.BT_TO_UU
      angVel := self._rigidBody.m_angularVelocity }
  (st, { self with _internalState := st })

/-- The method `Ball::SetState`. -/
def SetState (K : RLConst F) (self : Ball F) (state : BallState F) : Ball F :=
  let newTransform : btTransform F :=
    { (btTransform.identity : btTransform F) with m_origin := Vec.scale state.pos K.UU_TO_BT }
  { self with
    _internalState := state
    _rigidBody :=
      { self._rigidBody with
        m_worldTransform := newTransform
        m_linearVelocity := Vec.scale state.vel K.UU_TO_BT
        m_angularVelocity := state.angVel }
    _velocityImpulseCache := ⟨0, 0, 0⟩ }

/-- First block of `Ball::_FinishPhysicsTick` ("Add velocity cache"). -/
def addVelocityCache (self : Ball F) : Ball F :=
  if !self._velocityImpulseCache.IsZero then
    { self with
      _rigidBody :=
        { self._rigidBody with
          m_linearVelocity := Vec.add self._rigidBody.m_linearVelocity self._velocityImpulseCache }
      _velocityImpulseCache := ⟨0, 0, 0⟩ }
  else self

/-- Second block of `Ball::_FinishPhysicsTick` ("Limit velocities"), in exact arithmetic;
`limitVelocitiesF32` is the same block in `float` arithmetic. -/
def limitVelocities (K : RLConst F) (sqrt : F → F) (mutatorConfig : MutatorConfig F)
    (self : Ball F) : Ball F :=
  let vel := self._rigidBody.m_linearVelocity
  let angVel := self._rigidBody.m_angularVelocity
  let ballMaxSpeedBT := mutatorConfig.ballMaxSpeed * K.UU_TO_BT
  let vel :=
    if vel.length2 > ballMaxSpeedBT * ballMaxSpeedBT then
      Vec.scale (Vec.normalized sqrt vel) ballMaxSpeedBT
    else vel
  let angVel :=
    if angVel.length2 > K.BALL_MAX_ANG_SPEED * K.BALL_MAX_ANG_SPEED then
      Vec.scale (Vec.normalized sqrt angVel) K.BALL_MAX_ANG_SPEED
    else angVel
  { self with
    _rigidBody := { self._rigidBody with m_linearVelocity := vel, m_angularVelocity := angVel } }

/-- Third block of `Ball::_FinishPhysicsTick` (`if (mutatorConfig.enablePhysicsRounding)`). -/
def physicsRounding [FloorRing F] (K : RLConst F) (mutatorConfig : MutatorConfig F)
    (self : Ball F) : Ball F :=
  if mutatorConfig.enablePhysicsRounding then
    { self with
      _rigidBody :=
        { m_worldTransform :=
            { self._rigidBody.m_worldTransform with
              m_origin := RoundVec self._rigidBody.m_worldTransform.m_origin (1 / 100 * K.UU_TO_BT) }
          m_linearVelocity := RoundVec self._rigidBody.m_linearVelocity (1 / 100 * K.UU_TO_BT)
          m_angularVelocity := RoundVec self._rigidBody.m_angularVelocity (1 / 100000) } }
  else self

/-- The method `Ball::_FinishPhysicsTick`: its three blocks in source order. -/
def _FinishPhysicsTick [FloorRing F] (K : RLConst F) (sqrt : F → F) (self : Ball F)
    (mutatorConfig : MutatorConfig F) : Ball F :=
  physicsRounding K mutatorConfig (limitVelocities K sqrt mutatorConfig (addVelocityCache self))

/-- The "Limit velocities" block of `Ball::_FinishPhysicsTick` with the division inside
each `normalized()` checked: `none` when a vector of length 0 is normalized. -/
def limitVelocitiesChecked (K : RLConst F) (sqrt : F → F) (mutatorConfig : MutatorConfig F)
    (self : Ball F) : Option (Ball F) :=
  let vel := self._rigidBody.m_linearVelocity
  let angVel := self._rigidBody.m_angularVelocity
  let ballMaxSpeedBT := mutatorConfig.ballMaxSpeed * K.UU_TO_BT
  let velChecked : Option (Vec F) :=
    if vel.length2 > ballMaxSpeedBT * ballMaxSpeedBT then
      (Vec.normalizedChecked sqrt vel).map (fun n => Vec.scale n ballMaxSpeedBT)
    else some vel
  let angVelChecked : Option (Vec F) :=
    if angVel.length2 > K.BALL_MAX_ANG_SPEED * K.BALL_MAX_ANG_SPEED then
      (Vec.normalizedChecked sqrt angVel).map (fun n => Vec.scale n K.BALL_MAX_ANG_SPEED)
    else some angVel
  match velChecked, angVelChecked with
  | some vel, some angVel =>
    some
      { self with
        _rigidBody := { self._rigidBody with m_linearVelocity := vel, m_angularVelocity := angVel } }
  | _, _ => none

/-- The method `Ball::_FinishPhysicsTick` with the divisions of its clamp checked. -/
def _FinishPhysicsTickChecked [FloorRing F] (K : RLConst F) (sqrt : F → F) (self : Ball F)
    (mutatorConfig : MutatorConfig F) : Option (Ball F) :=
  (limitVelocitiesChecked K sqrt mutatorConfig (addVelocityCache self)).map
    (physicsRounding K mutatorConfig)

/-- The method `Ball::_PreTickUpdate`. -/
def _PreTickUpdate (K : RLConst F) (M : MathOps F) (self : Ball F) (gameMode : GameMode)
    (tickTime : F) : Ball F :=
  if gameMode = GameMode.HEATSEEKER then
    let state := (GetState K self).1
    let self := (GetState K self).2
    let yTargetDir := self._internalState.hsInfo.yTargetDir
    if yTargetDir ≠ 0 then
      let velAngle := M.FromVec state.vel
      let goalTargetPos : Vec F :=
        ⟨0, K.Heatseeker.TARGET_Y * yTargetDir, K.Heatseeker.TARGET_Z⟩
      let angleToGoal := M.FromVec (Vec.sub goalTargetPos state.pos)
      let deltaAngle := M.angleSub angleToGoal velAngle
      let curSpeed := Vec.length M.sqrt state.vel
      let speedRatio := curSpeed / K.Heatseeker.MAX_SPEED
      let newAngle := velAngle
      let baseInterpFactor := speedRatio * tickTime
      let newAngle : Angle F :=
        { newAngle with
          yaw := newAngle.yaw + deltaAngle.yaw * baseInterpFactor * K.Heatseeker.HORIZONTAL_BLEND }
      let newAngle : Angle F :=
        { newAngle with
          pitch := newAngle.pitch + deltaAngle.pitch * baseInterpFactor * K.Heatseeker.VERTICAL_BLEND }
      let newAngle := M.NormalizeFix newAngle
      let newAngle : Angle F :=
        { newAngle with
          pitch := RS_CLAMP newAngle.pitch (-K.Heatseeker.MAX_TURN_PITCH) K.Heatseeker.MAX_TURN_PITCH }
      let newSpeed := curSpeed + ((state.hsInfo.curTargetSpeed - curSpeed) * K.Heatseeker.SPEED_BLEND)
      let newDir := M.GetForwardVec newAngle
      let newVel := Vec.scale newDir newSpeed
      { self with
        _rigidBody := { self._rigidBody with m_linearVelocity := Vec.scale newVel K.UU_TO_BT }
        _internalState :=
          { self._internalState with
            hsInfo :=
              { self._internalState.hsInfo with
                timeSinceHit := self._internalState.hsInfo.timeSinceHit + tickTime } } }
    else self
  else self

/-- The method `Ball::_OnHit`. -/
def _OnHit (K : RLConst F) (self : Ball F) (gameMode : GameMode) (car : Car) : Ball F :=
  if gameMode = GameMode.HEATSEEKER then
    let increaseSpeed : Bool :=
      decide (self._internalState.hsInfo.timeSinceHit > K.Heatseeker.MIN_SPEEDUP_INTERVAL) ||
      decide (self._internalState.hsInfo.yTargetDir = 0)
    let self : Ball F :=
      { self with
        _internalState :=
          { self._internalState with
            hsInfo :=
              { self._internalState.hsInfo with
                yTargetDir := if car.team = Team.BLUE then 1 else -1 } } }
    if increaseSpeed then
      { self with
        _internalState :=
          { self._internalState with
            hsInfo :=
              { self._internalState.hsInfo with
                timeSinceHit := 0
                curTargetSpeed :=
                  RS_MIN
                    (self._internalState.hsInfo.curTargetSpeed + K.Heatseeker.TARGET_SPEED_INCREMENT)
                    K.Heatseeker.MAX_SPEED } } }
    else self
  else self

/-- The method `Ball::_OnWorldCollision`. -/
def _OnWorldCollision (K : RLConst F) (self : Ball F) (gameMode : GameMode) (normal : Vec F) :
    Ball F :=
  if gameMode = GameMode.HEATSEEKER then
    if self._internalState.hsInfo.yTargetDir ≠ 0 then
      let relNormalY := normal.y * self._internalState.hsInfo.yTargetDir
      if relNormalY ≤ -K.Heatseeker.WALL_BOUNCE_CHANGE_NORMAL_Y then
        { self with
          _internalState :=
            { self._internalState with
              hsInfo :=
                { self._internalState.hsInfo with
                  yTargetDir := self._internalState.hsInfo.yTargetDir * -1 } } }
      else self
    else self
  else self

end Ball

/-! ## Serialization -/

/-- The members of `BallState` that a field list can name. -/
inductive StateField where
  | pos
  | vel
  | angVel
  | yTargetDir
  | curTargetSpeed
  | timeSinceHit
deriving DecidableEq

namespace StateField

variable {F : Type}

/-- Modelled from the spec: the floats that `DataStreamOut::Write` appends for one field
(the stream is kept as the sequence of floats written, each one standing for its bytes). -/
def write (s : BallState F) : StateField → List F
  | pos => [s.pos.x, s.pos.y, s.pos.z]
  | vel => [s.vel.x, s.vel.y, s.vel.z]
  | angVel => [s.angVel.x, s.angVel.y, s.angVel.z]
  | yTargetDir => [s.hsInfo.yTargetDir]
  | curTargetSpeed => [s.hsInfo.curTargetSpeed]
  | timeSinceHit => [s.hsInfo.timeSinceHit]

/-- Modelled from the spec: `DataStreamIn::Read` for one field, which stores the next floats
of the stream into the field and returns the rest; `none` when the stream is too short. -/
def read (s : BallState F) : StateField → List F → Option (BallState F × List F)
  | pos, a :: b :: c :: rest => some ({ s with pos := ⟨a, b, c⟩ }, rest)
  | vel, a :: b :: c :: rest => some ({ s with vel := ⟨a, b, c⟩ }, rest)
  | angVel, a :: b :: c :: rest => some ({ s with angVel := ⟨a, b, c⟩ }, rest)
  | yTargetDir, a :: rest => some ({ s with hsInfo := { s.hsInfo with yTargetDir := a } }, rest)
  | curTargetSpeed, a :: rest =>
      some ({ s with hsInfo := { s.hsInfo with curTargetSpeed := a } }, rest)
  | timeSinceHit, a :: rest => some ({ s with hsInfo := { s.hsInfo with timeSinceHit := a } }, rest)
  | _, _ => none

/-- The state `into` with the field `f` taken from `src`. -/
def copy (src into : BallState F) : StateField → BallState F
  | pos => { into with pos := src.pos }
  | vel => { into with vel := src.vel }
  | angVel => { into with angVel := src.angVel }
  | yTargetDir => { into with hsInfo := { into.hsInfo with yTargetDir := src.hsInfo.yTargetDir } }
  | curTargetSpeed =>
      { into with hsInfo := { into.hsInfo with curTargetSpeed := src.hsInfo.curTargetSpeed } }
  | timeSinceHit =>
      { into with hsInfo := { into.hsInfo with timeSinceHit := src.hsInfo.timeSinceHit } }

end StateField

namespace BallState

variable {F : Type}

/-- Modelled from the spec: `DataStreamOut::WriteMultiple`, behind `BallState::Serialize`:
the fields of the list `fields` (the macro `BALLSTATE_SERIALIZATION_FIELDS`) written in order. -/
def Serialize (fields : List StateField) (self : BallState F) : List F :=
  match fields with
  | [] => []
  | f :: fs => StateField.write self f ++ Serialize fs self

/-- Modelled from the spec: `DataStreamIn::ReadMultiple`, behind `BallState::Deserialize`:
the fields of the list `fields` read in order into `self`; the state read and the rest of
the stream, `none` when the stream ends early. -/
def Deserialize (fields : List StateField) (self : BallState F) (inp : List F) :
    Option (BallState F × List F) :=
  match fields with
  | [] => some (self, inp)
  | f :: fs =>
    match StateField.read self f inp with
    | none => none
    | some (s, rest) => Deserialize fs s rest

/-- The fields `pos, vel, angVel`, in this order. -/
def kinematicFields : List StateField := [StateField.pos, StateField.vel, StateField.angVel]

end BallState

/-! ## Call sequences -/

/-- One call of the tick driver on the ball. -/
inductive TickEvent (F : Type) where
  | preTick (tickTime : F)
  | hit (car : Car)

namespace Ball

variable {F : Type} [LinearOrderedField F]

/-- The ball after one call. -/
def applyEvent (K : RLConst F) (M : MathOps F) (gameMode : GameMode) (self : Ball F) :
    TickEvent F → Ball F
  | TickEvent.preTick tickTime => _PreTickUpdate K M self gameMode tickTime
  | TickEvent.hit car => _OnHit K self gameMode car

/-- The ball after a sequence of calls, first call first. -/
def runEvents (K : RLConst F) (M : MathOps F) (gameMode : GameMode) (self : Ball F) :
    List (TickEvent F) → Ball F
  | [] => self
  | e :: es => runEvents K M gameMode (applyEvent K M gameMode self e) es

/-- The total tick time of the `_PreTickUpdate` calls of a sequence. -/
def elapsed : List (TickEvent F) → F
  | [] => 0
  | TickEvent.preTick tickTime :: es => tickTime + elapsed es
  | TickEvent.hit _ :: es => elapsed es

end Ball

/-! ## The post-tick stabilization in float32 -/

/-- Nearest integer, ties to the even one. -/
def roundHalfEven (y : ℚ) : ℤ :=
  if y - ⌊y⌋ < 1 / 2 then ⌊y⌋
  else if 1 / 2 < y - ⌊y⌋ then ⌊y⌋ + 1
  else if ⌊y⌋ % 2 = 0 then ⌊y⌋ else ⌊y⌋ + 1

/-- Rounding to the nearest binary floating-point number with `prec` significant bits and
least exponent `emin`: round to nearest, ties to even, gradual underflow. Overflow to
infinity is not represented, so this is the rounding of values of magnitude below the
largest finite number. -/
def fl (prec : ℕ) (emin : ℤ) (x : ℚ) : ℚ :=
  if x = 0 then 0
  else
    (roundHalfEven (x / 2 ^ (max (Int.log 2 |x|) emin - ((prec : ℤ) - 1))) : ℚ)
      * 2 ^ (max (Int.log 2 |x|) emin - ((prec : ℤ) - 1))

/-- Rounding to `float` (binary32), which follows every `float` operation of `Ball.cpp`. -/
def f32 (x : ℚ) : ℚ := fl 24 (-126) x

/-- Rounding to `double` (binary64). -/
def f64 (x : ℚ) : ℚ := fl 53 (-1022) x

/-- The square root in `float`, behind `btVector3::length`: the `float` nearest to the
square root of a positive argument (other arguments are sent to 0). -/
def sqrtf (x : ℚ) : ℚ :=
  if x ≤ 0 then 0
  else
    if x / (2 ^ (⌊(Int.log 2 x : ℚ) / 2⌋ - 23) * 2 ^ (⌊(Int.log 2 x : ℚ) / 2⌋ - 23))
        < ((Nat.sqrt
              ⌊x / (2 ^ (⌊(Int.log 2 x : ℚ) / 2⌋ - 23) * 2 ^ (⌊(Int.log 2 x : ℚ) / 2⌋ - 23))⌋₊
            : ℚ) + 1 / 2) ^ 2 then
      (Nat.sqrt
          ⌊x / (2 ^ (⌊(Int.log 2 x : ℚ) / 2⌋ - 23) * 2 ^ (⌊(Int.log 2 x : ℚ) / 2⌋ - 23))⌋₊ : ℚ)
        * 2 ^ (⌊(Int.log 2 x : ℚ) / 2⌋ - 23)
    else
      ((Nat.sqrt
          ⌊x / (2 ^ (⌊(Int.log 2 x : ℚ) / 2⌋ - 23) * 2 ^ (⌊(Int.log 2 x : ℚ) / 2⌋ - 23))⌋₊ : ℚ)
        + 1) * 2 ^ (⌊(Int.log 2 x : ℚ) / 2⌋ - 23)

namespace Vec

/-- Componentwise `operator+` in `float`. -/
def addF32 (a b : Vec ℚ) : Vec ℚ := ⟨f32 (a.x + b.x), f32 (a.y + b.y), f32 (a.z + b.z)⟩

/-- Vector times scalar in `float`. -/
def scaleF32 (v : Vec ℚ) (s : ℚ) : Vec ℚ := ⟨f32 (v.x * s), f32 (v.y * s), f32 (v.z * s)⟩

/-- The method `btVector3::length2` in `float`: `x*x + y*y + z*z`, each operation rounded. -/
def length2F32 (v : Vec ℚ) : ℚ :=
  f32 (f32 (f32 (v.x * v.x) + f32 (v.y * v.y)) + f32 (v.z * v.z))

/-- The method `btVector3::length` in `float`. -/
def lengthF32 (v : Vec ℚ) : ℚ := sqrtf (length2F32 v)

/-- The method `btVector3::normalized` in `float`: `operator/=` by the length, which
multiplies each component by `1 / length`. -/
def normalizedF32 (v : Vec ℚ) : Vec ℚ := scaleF32 v (f32 (1 / lengthF32 v))

end Vec

/-- Modelled from the spec: `Math::RoundVec` in `float`, `roundf(v / p) * p` on each
component. -/
def RoundVecF32 (v : Vec ℚ) (precision : ℚ) : Vec ℚ :=
  ⟨f32 (roundf (f32 (v.x / precision)) * precision),
   f32 (roundf (f32 (v.y / precision)) * precision),
   f32 (roundf (f32 (v.z / precision)) * precision)⟩

namespace Ball

/-- First block of `Ball::_FinishPhysicsTick` in `float`. -/
def addVelocityCacheF32 (self : Ball ℚ) : Ball ℚ :=
  if !self._velocityImpulseCache.IsZero then
    { self with
      _rigidBody :=
        { self._rigidBody with
          m_linearVelocity :=
            Vec.addF32 self._rigidBody.m_linearVelocity self._velocityImpulseCache }
      _velocityImpulseCache := ⟨0, 0, 0⟩ }
  else self

/-- Second block of `Ball::_FinishPhysicsTick` in `float`. -/
def limitVelocitiesF32 (K : RLConst ℚ) (mutatorConfig : MutatorConfig ℚ) (self : Ball ℚ) :
    Ball ℚ :=
  let vel := self._rigidBody.m_linearVelocity
  let angVel := self._rigidBody.m_angularVelocity
  let ballMaxSpeedBT := f32 (mutatorConfig.ballMaxSpeed * K.UU_TO_BT)
  let vel :=
    if vel.length2F32 > f32 (ballMaxSpeedBT * ballMaxSpeedBT) then
      Vec.scaleF32 (Vec.normalizedF32 vel) ballMaxSpeedBT
    else vel
  let angVel :=
    if angVel.length2F32 > f32 (K.BALL_MAX_ANG_SPEED * K.BALL_MAX_ANG_SPEED) then
      Vec.scaleF32 (Vec.normalizedF32 angVel) K.BALL_MAX_ANG_SPEED
    else angVel
  { self with
    _rigidBody := { self._rigidBody with m_linearVelocity := vel, m_angularVelocity := angVel } }

/-- Third block of `Ball::_FinishPhysicsTick` in `float`; the precisions `0.01 * UU_TO_BT`
and `0.00001` are computed in `double` and passed as `float`. -/
def physicsRoundingF32 (K : RLConst ℚ) (mutatorConfig : MutatorConfig ℚ) (self : Ball ℚ) :
    Ball ℚ :=
  if mutatorConfig.enablePhysicsRounding then
    { self with
      _rigidBody :=
        { m_worldTransform :=
            { self._rigidBody.m_worldTransform with
              m_origin :=
                RoundVecF32 self._rigidBody.m_worldTransform.m_origin
                  (f32 (f64 (f64 (1 / 100) * K.UU_TO_BT))) }
          m_linearVelocity :=
            RoundVecF32 self._rigidBody.m_linearVelocity (f32 (f64 (f64 (1 / 100) * K.UU_TO_BT)))
          m_angularVelocity :=
            RoundVecF32 self._rigidBody.m_angularVelocity (f32 (f64 (1 / 100000))) } }
  else self

/-- The method `Ball::_FinishPhysicsTick` in `float`: every arithmetic operation of the
exact version followed by the rounding to `float`. -/
def _FinishPhysicsTickF32 (K : RLConst ℚ) (self : Ball ℚ) (mutatorConfig : MutatorConfig ℚ) :
    Ball ℚ :=
  physicsRoundingF32 K mutatorConfig (limitVelocitiesF32 K mutatorConfig (addVelocityCacheF32 self))

end Ball

/-! ## Sample values -/

/-- Values for the constants, as in RocketSim's `RLConst.h` (`MAX_TURN_PITCH` to two
decimals). The theorems hold for every value of the constants; these serve the examples. -/
def defaultConst (F : Type) [Field F] : RLConst F where
  UU_TO_BT := 1 / 50
  BT_TO_UU := 50
  BALL_MAX_ANG_SPEED := 6
  Heatseeker :=
    { TARGET_SPEED_INCREMENT := 85
      MIN_SPEEDUP_INTERVAL := 1
      TARGET_Y := 5120
      TARGET_Z := 320
      HORIZONTAL_BLEND := 145 / 100
      VERTICAL_BLEND := 78 / 100
      SPEED_BLEND := 3 / 10
      MAX_TURN_PITCH := 67 / 100
      MAX_SPEED := 4600
      WALL_BOUNCE_CHANGE_NORMAL_Y := 3 / 4 }

/-- A ball state with a heatseeker target, 0.9 s after the last speed-up. -/
def sampleState (F : Type) [Field F] : BallState F :=
  ⟨⟨100, -200, 93⟩, ⟨300, 400, 0⟩, ⟨1, 2, 2⟩, ⟨1, 2900, 9 / 10⟩⟩

/-- A ball in the sample state: its engine body is at (2, -4, 1.86) and moves at (6, 8, 0)
in engine units, with an impulse of (1, 0, 0) pending. -/
def sampleBall (F : Type) [Field F] : Ball F :=
  ⟨sampleState F, ⟨⟨(⟨1, 0, 0⟩, ⟨0, 1, 0⟩, ⟨0, 0, 1⟩), ⟨2, -4, 93 / 50⟩⟩, ⟨6, 8, 0⟩, ⟨1, 2, 2⟩⟩,
    ⟨1, 0, 0⟩⟩

/-- A ball moving at (72.00011, 95.99991, 0) in engine units, just inside the default speed
cap of 120, with no impulse pending. -/
def nearCapBall (F : Type) [Field F] : Ball F :=
  ⟨sampleState F, ⟨btTransform.identity, ⟨7200011 / 100000, 9599991 / 100000, 0⟩, ⟨0, 0, 0⟩⟩,
    ⟨0, 0, 0⟩⟩

/-- A ball moving at (300, 400, 0) and spinning at (0, 0, 10) in engine units, above both
default caps, with no impulse pending. -/
def fastBall (F : Type) [Field F] : Ball F :=
  ⟨sampleState F, ⟨btTransform.identity, ⟨300, 400, 0⟩, ⟨0, 0, 10⟩⟩, ⟨0, 0, 0⟩⟩

/-- The constants with `UU_TO_BT` as the `float` that `1 / 50.f` is, 0.0199999995529651...;
the other constants read by `_FinishPhysicsTick` are `float` values as they stand. -/
def defaultConstF32 : RLConst ℚ :=
  { defaultConst ℚ with UU_TO_BT := 5368709 / 268435456 }

/-- A ball moving at (14, -56, 112) in engine units, speed 126, above the default cap of
120, not spinning, with no impulse pending. -/
def overCapBall (F : Type) [Field F] : Ball F :=
  ⟨sampleState F, ⟨btTransform.identity, ⟨14, -56, 112⟩, ⟨0, 0, 0⟩⟩, ⟨0, 0, 0⟩⟩

/-- A ball whose cached state (the sample state, `pos` (100, -200, 93)) is out of date:
the engine body has moved on to (3, -4, 1.86), which is (150, -200, 93) in simulation
units, and moves at (6, 8, 0). -/
def staleBall (F : Type) [Field F] : Ball F :=
  ⟨sampleState F, ⟨⟨(⟨1, 0, 0⟩, ⟨0, 1, 0⟩, ⟨0, 0, 1⟩), ⟨3, -4, 93 / 50⟩⟩, ⟨6, 8, 0⟩, ⟨1, 2, 2⟩⟩,
    ⟨0, 0, 0⟩⟩

/-- A ball at kickoff in HEATSEEKER mode: no target yet, target speed 2900. -/
def kickoffBall (F : Type) [Field F] : Ball F :=
  ⟨⟨⟨0, 0, 93⟩, ⟨0, 0, 0⟩, ⟨0, 0, 0⟩, ⟨0, 2900, 0⟩⟩,
    ⟨btTransform.identity, ⟨0, 0, 0⟩, ⟨0, 0, 0⟩⟩, ⟨0, 0, 0⟩⟩

/-! ## Basic facts -/

section Basic

variable {F : Type} [LinearOrderedField F]

theorem Vec.scale_scale_cancel (v : Vec F) (a b : F) (h : a * b = 1) :
    Vec.scale (Vec.scale v a) b = v := by
  cases v with
  | mk x y z =>
    simp only [Vec.scale, Vec.mk.injEq]
    refine ⟨?_, ?_, ?_⟩ <;> rw [mul_assoc, h, mul_one]

theorem Vec.length2_nonneg (v : Vec F) : 0 ≤ Vec.length2 v := by
  unfold Vec.length2
  nlinarith [mul_self_nonneg v.x, mul_self_nonneg v.y, mul_self_nonneg v.z]

theorem Vec.DistSq_nonneg (a b : Vec F) : 0 ≤ Vec.DistSq a b :=
  Vec.length2_nonneg _

theorem Vec.DistSq_self (a : Vec F) : Vec.DistSq a a = 0 := by
  simp [Vec.DistSq, Vec.length2, Vec.sub]

theorem Vec.IsZero_iff (v : Vec F) : Vec.IsZero v = true ↔ v = ⟨0, 0, 0⟩ := by
  cases v with
  | mk x y z => simp [Vec.IsZero, and_assoc]

theorem Vec.add_zero_right (v : Vec F) : Vec.add v ⟨0, 0, 0⟩ = v := by
  cases v with
  | mk x y z => simp [Vec.add]

end Basic

/-! ## State bridge and approximate equality -/

section Bridge

variable {F : Type} [LinearOrderedField F]

/-- C1: when `UU_TO_BT * BT_TO_UU = 1`, `SetState(s)` followed by `GetState()` returns a
state equal to `s`: same `pos`, `vel`, `angVel` and the same `hsInfo`. -/
theorem setState_getState_roundtrip (K : RLConst F) (b : Ball F) (s : BallState F)
    (hK : K.UU_TO_BT * K.BT_TO_UU = 1) :
    let r := (Ball.GetState K (Ball.SetState K b s)).1
    r.pos = s.pos ∧ r.vel = s.vel ∧ r.angVel = s.angVel ∧
      r.hsInfo.yTargetDir = s.hsInfo.yTargetDir ∧
      r.hsInfo.curTargetSpeed = s.hsInfo.curTargetSpeed ∧
      r.hsInfo.timeSinceHit = s.hsInfo.timeSinceHit ∧ r = s := by
  have hr : (Ball.GetState K (Ball.SetState K b s)).1 = s := by
    cases s with
    | mk pos vel angVel hsInfo =>
      simp only [Ball.GetState, Ball.SetState, BallState.mk.injEq, and_true, true_and]
      exact ⟨Vec.scale_scale_cancel _ _ _ hK, Vec.scale_scale_cancel _ _ _ hK⟩
  simp only [hr, and_self]

/-- C1, at the sample ball and state with the constants of `RLConst.h`. -/
theorem setState_getState_roundtrip_witness :
    (defaultConst ℚ).UU_TO_BT * (defaultConst ℚ).BT_TO_UU = 1 ∧
      (Ball.GetState (defaultConst ℚ)
        (Ball.SetState (defaultConst ℚ) (sampleBall ℚ) ⟨⟨1, 2, 3⟩, ⟨4, 5, 6⟩, ⟨7, 8, 9⟩, ⟨-1, 3000, 2⟩⟩)).1
        = ⟨⟨1, 2, 3⟩, ⟨4, 5, 6⟩, ⟨7, 8, 9⟩, ⟨-1, 3000, 2⟩⟩ :=
  ⟨by norm_num [defaultConst],
    (setState_getState_roundtrip (defaultConst ℚ) (sampleBall ℚ)
      ⟨⟨1, 2, 3⟩, ⟨4, 5, 6⟩, ⟨7, 8, 9⟩, ⟨-1, 3000, 2⟩⟩ (by norm_num [defaultConst])).2.2.2.2.2.2⟩

/-- C8: `Matches` is true exactly when the squared distances of the two `pos`, of the two
`vel` and of the two `angVel` are each strictly below the square of their own margin, and
its result does not change when the `hsInfo` of either state is replaced. -/
theorem matches_iff (a b : BallState F) (marginPos marginVel marginAngVel : F) :
    (a.Matches b marginPos marginVel marginAngVel = true ↔
      ((a.pos.x - b.pos.x) ^ 2 + (a.pos.y - b.pos.y) ^ 2 + (a.pos.z - b.pos.z) ^ 2
          < marginPos ^ 2 ∧
        (a.vel.x - b.vel.x) ^ 2 + (a.vel.y - b.vel.y) ^ 2 + (a.vel.z - b.vel.z) ^ 2
          < marginVel ^ 2 ∧
        (a.angVel.x - b.angVel.x) ^ 2 + (a.angVel.y - b.angVel.y) ^ 2
            + (a.angVel.z - b.angVel.z) ^ 2
          < marginAngVel ^ 2)) ∧
    ∀ ha hb : HeatseekerInfo F,
      BallState.Matches { a with hsInfo := ha } { b with hsInfo := hb }
          marginPos marginVel marginAngVel
        = a.Matches b marginPos marginVel marginAngVel := by
  constructor
  · simp only [BallState.Matches, Vec.DistSq, Vec.length2, Vec.sub, Bool.and_eq_true,
      decide_eq_true_eq, and_assoc, pow_two]
  · intro ha hb
    rfl

end Bridge

/-! ## Collision hooks -/

section Hooks

variable {F : Type} [LinearOrderedField F]

/-- C6: in HEATSEEKER mode, with `yTargetDir = 1` a normal with
`normal.y <= -WALL_BOUNCE_CHANGE_NORMAL_Y` sets `yTargetDir` to `-1` and a normal with
`normal.y > -WALL_BOUNCE_CHANGE_NORMAL_Y` leaves it at `1`; for any `yTargetDir != 0`,
`yTargetDir` is negated exactly when `normal.y * yTargetDir <= -WALL_BOUNCE_CHANGE_NORMAL_Y`
and is unchanged otherwise. -/
theorem onWorldCollision_flips_target (K : RLConst F) (b : Ball F) (normal : Vec F) :
    let y := b._internalState.hsInfo.yTargetDir
    let W := K.Heatseeker.WALL_BOUNCE_CHANGE_NORMAL_Y
    let y' := (Ball._OnWorldCollision K b GameMode.HEATSEEKER normal)._internalState.hsInfo.yTargetDir
    (y = 1 → normal.y ≤ -W → y' = -1) ∧
    (y = 1 → -W < normal.y → y' = 1) ∧
    (y ≠ 0 → (normal.y * y ≤ -W → y' = -y) ∧ (¬ normal.y * y ≤ -W → y' = y) ∧
      (y' = -y ↔ normal.y * y ≤ -W)) := by
  intro y W y'
  have hflip : y ≠ 0 → normal.y * y ≤ -W → y' = -y := by
    intro hy hle
    simp only [y', Ball._OnWorldCollision, if_true]
    rw [if_pos hy, if_pos hle]
    simp [y]
  have hkeep : y ≠ 0 → ¬ normal.y * y ≤ -W → y' = y := by
    intro hy hle
    simp only [y', Ball._OnWorldCollision, if_true]
    rw [if_pos hy, if_neg hle]
  refine ⟨?_, ?_, ?_⟩
  · intro h1 hle
    have hy : y ≠ 0 := by rw [h1]; exact one_ne_zero
    have := hflip hy (by rw [h1, mul_one]; exact hle)
    rw [this, h1]
  · intro h1 hlt
    have hy : y ≠ 0 := by rw [h1]; exact one_ne_zero
    have := hkeep hy (by rw [h1, mul_one]; exact not_le.mpr hlt)
    rw [this, h1]
  · intro hy
    refine ⟨hflip hy, hkeep hy, ?_⟩
    constructor
    · intro h
      by_contra hle
      rw [hkeep hy hle] at h
      have h2 : y + y = 0 := by nth_rewrite 1 [h]; simp
      have h3 : (2 : F) * y = 0 := by rw [two_mul]; exact h2
      rcases mul_eq_zero.mp h3 with h4 | h4
      · exact two_ne_zero h4
      · exact hy h4
    · exact hflip hy

/-- C6, at a ball with `yTargetDir = 1` hitting the back wall (normal (0, -1, 0)). -/
theorem onWorldCollision_flips_target_witness :
    (Ball._OnWorldCollision (defaultConst ℚ) (sampleBall ℚ) GameMode.HEATSEEKER
      ⟨0, -1, 0⟩)._internalState.hsInfo.yTargetDir = -1 :=
  (onWorldCollision_flips_target (defaultConst ℚ) (sampleBall ℚ) ⟨0, -1, 0⟩).1 rfl
    (by norm_num [defaultConst])

/-- C9: outside HEATSEEKER mode `_OnHit` and `_OnWorldCollision` return the ball unchanged:
cached state with `hsInfo`, engine body and impulse cache. -/
theorem hooks_noop_outside_heatseeker (K : RLConst F) (b : Ball F) (gameMode : GameMode)
    (car : Car) (normal : Vec F) (hmode : gameMode ≠ GameMode.HEATSEEKER) :
    Ball._OnHit K b gameMode car = b ∧ Ball._OnWorldCollision K b gameMode normal = b := by
  constructor
  · simp only [Ball._OnHit, if_neg hmode]
  · simp only [Ball._OnWorldCollision, if_neg hmode]

/-- C9, for a blue car touching the sample ball and a wall contact in SOCCAR mode. -/
theorem hooks_noop_outside_heatseeker_witness :
    GameMode.SOCCAR ≠ GameMode.HEATSEEKER ∧
      Ball._OnHit (defaultConst ℚ) (sampleBall ℚ) GameMode.SOCCAR ⟨Team.BLUE⟩ = sampleBall ℚ ∧
      Ball._OnWorldCollision (defaultConst ℚ) (sampleBall ℚ) GameMode.SOCCAR ⟨0, -1, 0⟩
        = sampleBall ℚ :=
  ⟨by decide,
    hooks_noop_outside_heatseeker (defaultConst ℚ) (sampleBall ℚ) GameMode.SOCCAR ⟨Team.BLUE⟩
      ⟨0, -1, 0⟩ (by decide)⟩

end Hooks

/-! ## Post-tick stabilization -/

section PostTick

variable {F : Type} [LinearOrderedField F]

theorem Ball.addVelocityCache_cache (b : Ball F) :
    (Ball.addVelocityCache b)._velocityImpulseCache = ⟨0, 0, 0⟩ := by
  unfold Ball.addVelocityCache
  by_cases h : b._velocityImpulseCache.IsZero = true
  · simp only [h, Bool.not_true, Bool.false_eq_true, if_false]
    exact (Vec.IsZero_iff _).mp h
  · simp only [Bool.not_eq_true] at h
    simp [h]

theorem Ball.addVelocityCache_linearVelocity (b : Ball F) :
    (Ball.addVelocityCache b)._rigidBody.m_linearVelocity
      = Vec.add b._rigidBody.m_linearVelocity b._velocityImpulseCache := by
  unfold Ball.addVelocityCache
  by_cases h : b._velocityImpulseCache.IsZero = true
  · simp only [h, Bool.not_true, Bool.false_eq_true, if_false]
    rw [(Vec.IsZero_iff _).mp h, Vec.add_zero_right]
  · simp only [Bool.not_eq_true] at h
    simp [h]

theorem Ball.addVelocityCache_of_zero (b : Ball F) (h : b._velocityImpulseCache = ⟨0, 0, 0⟩) :
    Ball.addVelocityCache b = b := by
  unfold Ball.addVelocityCache
  have hz : b._velocityImpulseCache.IsZero = true := (Vec.IsZero_iff _).mpr h
  simp [hz]

theorem Ball.limitVelocities_cache (K : RLConst F) (sqrt : F → F) (cfg : MutatorConfig F)
    (b : Ball F) :
    (Ball.limitVelocities K sqrt cfg b)._velocityImpulseCache = b._velocityImpulseCache := rfl

theorem Ball.limitVelocities_linearVelocity_of_le (K : RLConst F) (sqrt : F → F)
    (cfg : MutatorConfig F) (b : Ball F)
    (h : Vec.length2 b._rigidBody.m_linearVelocity
      ≤ cfg.ballMaxSpeed * K.UU_TO_BT * (cfg.ballMaxSpeed * K.UU_TO_BT)) :
    (Ball.limitVelocities K sqrt cfg b)._rigidBody.m_linearVelocity
      = b._rigidBody.m_linearVelocity := by
  simp only [Ball.limitVelocities, gt_iff_lt, if_neg (not_lt.mpr h)]

variable [FloorRing F]

theorem Ball.physicsRounding_cache (K : RLConst F) (cfg : MutatorConfig F) (b : Ball F) :
    (Ball.physicsRounding K cfg b)._velocityImpulseCache = b._velocityImpulseCache := by
  unfold Ball.physicsRounding
  split <;> rfl

theorem Ball.physicsRounding_of_disabled (K : RLConst F) (cfg : MutatorConfig F) (b : Ball F)
    (h : cfg.enablePhysicsRounding = false) : Ball.physicsRounding K cfg b = b := by
  simp [Ball.physicsRounding, h]

theorem Ball.finishPhysicsTick_eq (K : RLConst F) (sqrt : F → F) (b : Ball F)
    (cfg : MutatorConfig F) :
    Ball._FinishPhysicsTick K sqrt b cfg
      = Ball.physicsRounding K cfg (Ball.limitVelocities K sqrt cfg (Ball.addVelocityCache b)) :=
  rfl

theorem Ball.finishPhysicsTick_cache (K : RLConst F) (sqrt : F → F) (b : Ball F)
    (cfg : MutatorConfig F) :
    (Ball._FinishPhysicsTick K sqrt b cfg)._velocityImpulseCache = ⟨0, 0, 0⟩ := by
  unfold Ball._FinishPhysicsTick
  rw [Ball.physicsRounding_cache, Ball.limitVelocities_cache, Ball.addVelocityCache_cache]

/-- C3: with rounding disabled, when the sum of the engine linear velocity `v` and the
pending impulse `c` (zero or not) does not exceed the speed cap, one `_FinishPhysicsTick`
leaves the linear velocity at `v + c` and the cache at zero, and a second one leaves the
linear velocity at `v + c`; and on every input the cache is zero after
`_FinishPhysicsTick`. -/
theorem finishPhysicsTick_applies_impulse_once (K : RLConst F) (sqrt : F → F) (b : Ball F)
    (cfg : MutatorConfig F) :
    (cfg.enablePhysicsRounding = false →
      Vec.length2 (Vec.add b._rigidBody.m_linearVelocity b._velocityImpulseCache)
        ≤ (cfg.ballMaxSpeed * K.UU_TO_BT) ^ 2 →
      (Ball._FinishPhysicsTick K sqrt b cfg)._rigidBody.m_linearVelocity
          = Vec.add b._rigidBody.m_linearVelocity b._velocityImpulseCache ∧
        (Ball._FinishPhysicsTick K sqrt b cfg)._velocityImpulseCache = ⟨0, 0, 0⟩ ∧
        (Ball._FinishPhysicsTick K sqrt (Ball._FinishPhysicsTick K sqrt b cfg)
            cfg)._rigidBody.m_linearVelocity
          = Vec.add b._rigidBody.m_linearVelocity b._velocityImpulseCache) ∧
    (Ball._FinishPhysicsTick K sqrt b cfg)._velocityImpulseCache = ⟨0, 0, 0⟩ := by
  refine ⟨?_, Ball.finishPhysicsTick_cache K sqrt b cfg⟩
  intro hr hle
  rw [pow_two] at hle
  have h1 : (Ball._FinishPhysicsTick K sqrt b cfg)._rigidBody.m_linearVelocity
      = Vec.add b._rigidBody.m_linearVelocity b._velocityImpulseCache := by
    unfold Ball._FinishPhysicsTick
    rw [Ball.physicsRounding_of_disabled K cfg _ hr,
      Ball.limitVelocities_linearVelocity_of_le K sqrt cfg _
        (by rw [Ball.addVelocityCache_linearVelocity]; exact hle),
      Ball.addVelocityCache_linearVelocity]
  refine ⟨h1, Ball.finishPhysicsTick_cache K sqrt b cfg, ?_⟩
  have h2 : Ball.addVelocityCache (Ball._FinishPhysicsTick K sqrt b cfg)
      = Ball._FinishPhysicsTick K sqrt b cfg :=
    Ball.addVelocityCache_of_zero _ (Ball.finishPhysicsTick_cache K sqrt b cfg)
  have h3 : (Ball._FinishPhysicsTick K sqrt (Ball._FinishPhysicsTick K sqrt b cfg)
      cfg)._rigidBody.m_linearVelocity
      = (Ball._FinishPhysicsTick K sqrt b cfg)._rigidBody.m_linearVelocity := by
    rw [Ball.finishPhysicsTick_eq K sqrt (Ball._FinishPhysicsTick K sqrt b cfg) cfg,
      Ball.physicsRounding_of_disabled K cfg _ hr, h2,
      Ball.limitVelocities_linearVelocity_of_le K sqrt cfg _ (by rw [h1]; exact hle)]
  rw [h3, h1]

/-- C3, at the sample ball over the reals: velocity (6, 8, 0), impulse (1, 0, 0), cap
6000 uu/s. -/
theorem finishPhysicsTick_applies_impulse_once_witness :
    (Ball._FinishPhysicsTick (defaultConst ℝ) Real.sqrt (sampleBall ℝ)
        ⟨6000, false⟩)._rigidBody.m_linearVelocity = ⟨7, 8, 0⟩ ∧
      (Ball._FinishPhysicsTick (defaultConst ℝ) Real.sqrt (sampleBall ℝ)
        ⟨6000, false⟩)._velocityImpulseCache = ⟨0, 0, 0⟩ ∧
      (Ball._FinishPhysicsTick (defaultConst ℝ) Real.sqrt
        (Ball._FinishPhysicsTick (defaultConst ℝ) Real.sqrt (sampleBall ℝ) ⟨6000, false⟩)
        ⟨6000, false⟩)._rigidBody.m_linearVelocity = ⟨7, 8, 0⟩ := by
  have h := (finishPhysicsTick_applies_impulse_once (defaultConst ℝ) Real.sqrt (sampleBall ℝ)
    ⟨6000, false⟩).1 rfl (by norm_num [sampleBall, defaultConst, Vec.add, Vec.length2])
  have e : Vec.add (sampleBall ℝ)._rigidBody.m_linearVelocity
      (sampleBall ℝ)._velocityImpulseCache = ⟨7, 8, 0⟩ := by
    norm_num [sampleBall, Vec.add]
  rw [e] at h
  exact h

/-- C10: `SetState(s)` zeroes the impulse cache whatever was pending, so the first block of
`_FinishPhysicsTick` leaves the linear velocity at `s.vel * UU_TO_BT`, and `SetState(s)`
followed by `_FinishPhysicsTick` gives the same ball as it does from a ball whose cache
was zero already. -/
theorem setState_clears_impulse (K : RLConst F) (sqrt : F → F) (b : Ball F) (s : BallState F)
    (cfg : MutatorConfig F) :
    (Ball.SetState K b s)._velocityImpulseCache = ⟨0, 0, 0⟩ ∧
    (Ball.addVelocityCache (Ball.SetState K b s))._rigidBody.m_linearVelocity
      = Vec.scale s.vel K.UU_TO_BT ∧
    Ball._FinishPhysicsTick K sqrt (Ball.SetState K b s) cfg
      = Ball._FinishPhysicsTick K sqrt
          (Ball.SetState K { b with _velocityImpulseCache := ⟨0, 0, 0⟩ } s) cfg := by
  refine ⟨rfl, ?_, rfl⟩
  rw [Ball.addVelocityCache_of_zero _ rfl]
  rfl

theorem roundf_intCast (n : ℤ) : roundf (n : F) = n := by
  unfold roundf
  split
  · have h : ⌊(n : F) + 1 / 2⌋ = n := by
      rw [Int.floor_eq_iff]
      constructor <;> norm_num
    rw [h]
  · have h : ⌈(n : F) - 1 / 2⌉ = n := by
      rw [Int.ceil_eq_iff]
      constructor <;> norm_num
    rw [h]

theorem roundf_roundf (x : F) : roundf (roundf x) = roundf x := by
  have h : ∃ m : ℤ, roundf x = m := by
    unfold roundf
    split
    · exact ⟨_, rfl⟩
    · exact ⟨_, rfl⟩
  obtain ⟨m, hm⟩ := h
  rw [hm, roundf_intCast]

theorem roundf_grid (a p : F) : roundf (roundf a * p / p) * p = roundf a * p := by
  by_cases hp : p = 0
  · rw [hp, mul_zero, mul_zero]
  · rw [mul_div_assoc, div_self hp, mul_one, roundf_roundf]

theorem RoundVec_idem (v : Vec F) (p : F) : RoundVec (RoundVec v p) p = RoundVec v p := by
  simp only [RoundVec, roundf_grid]

/-- C5: the quantization step of `_FinishPhysicsTick` applied twice gives the same ball, so
the same position, linear velocity and angular velocity, as applied once; this rests on
`RoundVec(RoundVec(v, p), p) = RoundVec(v, p)`. -/
theorem physicsRounding_idempotent (K : RLConst F) (cfg : MutatorConfig F) (b : Ball F) :
    Ball.physicsRounding K cfg (Ball.physicsRounding K cfg b) = Ball.physicsRounding K cfg b ∧
    ∀ (v : Vec F) (p : F), RoundVec (RoundVec v p) p = RoundVec v p := by
  refine ⟨?_, RoundVec_idem⟩
  unfold Ball.physicsRounding
  cases cfg.enablePhysicsRounding
  · simp
  · simp only [if_true, RoundVec_idem]

end PostTick

/-! ## The speed cap -/

section SpeedCap

variable {F : Type} [LinearOrderedField F]

theorem sqrt_le_of_le_mul_self (sqrt : F → F)
    (hsqrt : ∀ x, 0 ≤ x → 0 ≤ sqrt x ∧ sqrt x * sqrt x = x) (x M : F) (hx : 0 ≤ x)
    (hM : 0 ≤ M) (h : x ≤ M * M) : sqrt x ≤ M := by
  obtain ⟨h0, h1⟩ := hsqrt x hx
  by_contra hlt
  have hlt2 : M < sqrt x := not_le.mp hlt
  have : M * M < sqrt x * sqrt x := mul_self_lt_mul_self hM hlt2
  rw [h1] at this
  exact absurd h (not_le.mpr this)

theorem Vec.length2_clamped (sqrt : F → F)
    (hsqrt : ∀ x, 0 ≤ x → 0 ≤ sqrt x ∧ sqrt x * sqrt x = x) (v : Vec F) (M : F)
    (h : M * M < Vec.length2 v) :
    Vec.length2 (Vec.scale (Vec.normalized sqrt v) M) = M * M := by
  obtain ⟨h0, h1⟩ := hsqrt (Vec.length2 v) (Vec.length2_nonneg v)
  have hpos : 0 < Vec.length2 v := lt_of_le_of_lt (mul_self_nonneg M) h
  have hs : sqrt (Vec.length2 v) ≠ 0 := by
    intro hz
    rw [hz, mul_zero] at h1
    exact absurd h1.symm (ne_of_gt hpos)
  have h2 : v.x * v.x + v.y * v.y + v.z * v.z = sqrt (Vec.length2 v) * sqrt (Vec.length2 v) := by
    rw [h1]
    rfl
  simp only [Vec.scale, Vec.normalized, Vec.divScalar, Vec.length]
  generalize sqrt (Vec.length2 v) = t at hs h2
  unfold Vec.length2
  field_simp
  linear_combination (M * M) * h2

theorem Ball.limitVelocities_bounds (K : RLConst F) (sqrt : F → F)
    (hsqrt : ∀ x, 0 ≤ x → 0 ≤ sqrt x ∧ sqrt x * sqrt x = x) (cfg : MutatorConfig F)
    (b : Ball F) :
    Vec.length2 (Ball.limitVelocities K sqrt cfg b)._rigidBody.m_linearVelocity
        ≤ cfg.ballMaxSpeed * K.UU_TO_BT * (cfg.ballMaxSpeed * K.UU_TO_BT) ∧
      Vec.length2 (Ball.limitVelocities K sqrt cfg b)._rigidBody.m_angularVelocity
        ≤ K.BALL_MAX_ANG_SPEED * K.BALL_MAX_ANG_SPEED := by
  simp only [Ball.limitVelocities, gt_iff_lt]
  constructor
  · split
    · next h => exact le_of_eq (Vec.length2_clamped sqrt hsqrt _ _ h)
    · next h => exact not_lt.mp h
  · split
    · next h => exact le_of_eq (Vec.length2_clamped sqrt hsqrt _ _ h)
    · next h => exact not_lt.mp h

theorem roundf_of_nonneg [FloorRing F] (x : F) (n : ℤ) (h0 : 0 ≤ x) (h1 : (n : F) ≤ x + 1 / 2)
    (h2 : x + 1 / 2 < n + 1) : roundf x = n := by
  unfold roundf
  rw [if_pos h0, Int.floor_eq_iff.mpr ⟨h1, h2⟩]

/-- With rounding enabled the cap can be exceeded: with the constants of `RLConst.h` and
`ballMaxSpeed = 6000` (cap 120 in engine units), the engine velocity
(72.00011, 95.99991, 0) is below the cap and is not rescaled, and the quantization step
then moves it to (72.0002, 96, 0), whose length is above 120. -/
theorem Ball.finishPhysicsTick_nearCap_rounded :
    (0 : ℝ) ≤ (⟨6000, true⟩ : MutatorConfig ℝ).ballMaxSpeed ∧
      (Ball._FinishPhysicsTick (defaultConst ℝ) Real.sqrt (nearCapBall ℝ)
        ⟨6000, true⟩)._rigidBody.m_linearVelocity = ⟨360001 / 5000, 96, 0⟩ ∧
      (⟨6000, true⟩ : MutatorConfig ℝ).ballMaxSpeed * (defaultConst ℝ).UU_TO_BT
        < Vec.length Real.sqrt
            (Ball._FinishPhysicsTick (defaultConst ℝ) Real.sqrt (nearCapBall ℝ)
              ⟨6000, true⟩)._rigidBody.m_linearVelocity := by
  have hv : (Ball._FinishPhysicsTick (defaultConst ℝ) Real.sqrt (nearCapBall ℝ)
      ⟨6000, true⟩)._rigidBody.m_linearVelocity = ⟨360001 / 5000, 96, 0⟩ := by
    rw [Ball.finishPhysicsTick_eq, Ball.addVelocityCache_of_zero _ rfl]
    have hl : (Ball.limitVelocities (defaultConst ℝ) Real.sqrt ⟨6000, true⟩
        (nearCapBall ℝ))._rigidBody.m_linearVelocity = ⟨7200011 / 100000, 9599991 / 100000, 0⟩ := by
      rw [Ball.limitVelocities_linearVelocity_of_le]
      · rfl
      · norm_num [nearCapBall, defaultConst, Vec.length2]
    have hp : (Ball.physicsRounding (defaultConst ℝ) ⟨6000, true⟩
        (Ball.limitVelocities (defaultConst ℝ) Real.sqrt ⟨6000, true⟩
          (nearCapBall ℝ)))._rigidBody.m_linearVelocity
        = RoundVec (Ball.limitVelocities (defaultConst ℝ) Real.sqrt ⟨6000, true⟩
            (nearCapBall ℝ))._rigidBody.m_linearVelocity (1 / 100 * (defaultConst ℝ).UU_TO_BT) := by
      simp only [Ball.physicsRounding, if_true]
    rw [hp, hl]
    simp only [RoundVec, defaultConst, Vec.mk.injEq]
    refine ⟨?_, ?_, ?_⟩
    · rw [roundf_of_nonneg _ 360001 (by norm_num) (by norm_num) (by norm_num)]
      norm_num
    · rw [roundf_of_nonneg _ 480000 (by norm_num) (by norm_num) (by norm_num)]
      norm_num
    · rw [roundf_of_nonneg _ 0 (by norm_num) (by norm_num) (by norm_num)]
      norm_num
  refine ⟨by norm_num, hv, ?_⟩
  rw [hv]
  unfold Vec.length
  apply Real.lt_sqrt_of_sq_lt
  norm_num [defaultConst, Vec.length2]

theorem roundf_abs_sub_le [FloorRing F] (y : F) : |roundf y - y| ≤ 1 / 2 := by
  unfold roundf
  rw [abs_le]
  split
  · have h1 := Int.floor_le (y + 1 / 2)
    have h2 := Int.lt_floor_add_one (y + 1 / 2)
    constructor <;> linarith
  · have h1 := Int.le_ceil (y - 1 / 2)
    have h2 := Int.ceil_lt_add_one (y - 1 / 2)
    constructor <;> linarith

theorem roundf_grid_near [FloorRing F] (x p : F) (hp : 0 < p) :
    |roundf (x / p) * p - x| ≤ p / 2 := by
  have h1 : roundf (x / p) * p - x = (roundf (x / p) - x / p) * p := by
    field_simp
  rw [h1, abs_mul, abs_of_pos hp]
  have h2 := roundf_abs_sub_le (x / p)
  nlinarith

/-- Each component of `RoundVec(v, p)` is within half a grid step of that of `v`. -/
theorem RoundVec_near [FloorRing F] (v : Vec F) (p : F) (hp : 0 < p) :
    |(RoundVec v p).x - v.x| ≤ p / 2 ∧ |(RoundVec v p).y - v.y| ≤ p / 2 ∧
      |(RoundVec v p).z - v.z| ≤ p / 2 :=
  ⟨roundf_grid_near v.x p hp, roundf_grid_near v.y p hp, roundf_grid_near v.z p hp⟩

/-- C2, amended: in exact arithmetic, with `ballMaxSpeed >= 0` (and `UU_TO_BT >= 0`,
`BALL_MAX_ANG_SPEED >= 0`), the velocities left by the clamp of `_FinishPhysicsTick` have
linear speed at most `ballMaxSpeed * UU_TO_BT` and angular speed at most
`BALL_MAX_ANG_SPEED`, zero vectors included; with rounding disabled these are the
velocities after `_FinishPhysicsTick`; with rounding enabled the velocities after
`_FinishPhysicsTick` are the `RoundVec` images of these bounded velocities, each component
within half a grid step (`0.005 * UU_TO_BT` for `UU_TO_BT > 0`, and `0.000005`) of the
bounded one. -/
theorem finishPhysicsTick_speed_cap (K : RLConst F) [FloorRing F] (sqrt : F → F)
    (hsqrt : ∀ x, 0 ≤ x → 0 ≤ sqrt x ∧ sqrt x * sqrt x = x) (b : Ball F)
    (cfg : MutatorConfig F) (hmax : 0 ≤ cfg.ballMaxSpeed) (hUU : 0 ≤ K.UU_TO_BT)
    (hang : 0 ≤ K.BALL_MAX_ANG_SPEED) :
    (Vec.length sqrt
          (Ball.limitVelocities K sqrt cfg (Ball.addVelocityCache b))._rigidBody.m_linearVelocity
        ≤ cfg.ballMaxSpeed * K.UU_TO_BT ∧
      Vec.length sqrt
          (Ball.limitVelocities K sqrt cfg (Ball.addVelocityCache b))._rigidBody.m_angularVelocity
        ≤ K.BALL_MAX_ANG_SPEED) ∧
    (cfg.enablePhysicsRounding = false →
      Vec.length sqrt (Ball._FinishPhysicsTick K sqrt b cfg)._rigidBody.m_linearVelocity
          ≤ cfg.ballMaxSpeed * K.UU_TO_BT ∧
        Vec.length sqrt (Ball._FinishPhysicsTick K sqrt b cfg)._rigidBody.m_angularVelocity
          ≤ K.BALL_MAX_ANG_SPEED) ∧
    (cfg.enablePhysicsRounding = true →
      (Ball._FinishPhysicsTick K sqrt b cfg)._rigidBody.m_linearVelocity
          = RoundVec
              (Ball.limitVelocities K sqrt cfg
                (Ball.addVelocityCache b))._rigidBody.m_linearVelocity
              (1 / 100 * K.UU_TO_BT) ∧
        (Ball._FinishPhysicsTick K sqrt b cfg)._rigidBody.m_angularVelocity
          = RoundVec
              (Ball.limitVelocities K sqrt cfg
                (Ball.addVelocityCache b))._rigidBody.m_angularVelocity
              (1 / 100000) ∧
        (0 < K.UU_TO_BT →
          |(Ball._FinishPhysicsTick K sqrt b cfg)._rigidBody.m_linearVelocity.x
              - (Ball.limitVelocities K sqrt cfg
                  (Ball.addVelocityCache b))._rigidBody.m_linearVelocity.x|
            ≤ 1 / 100 * K.UU_TO_BT / 2 ∧
          |(Ball._FinishPhysicsTick K sqrt b cfg)._rigidBody.m_linearVelocity.y
              - (Ball.limitVelocities K sqrt cfg
                  (Ball.addVelocityCache b))._rigidBody.m_linearVelocity.y|
            ≤ 1 / 100 * K.UU_TO_BT / 2 ∧
          |(Ball._FinishPhysicsTick K sqrt b cfg)._rigidBody.m_linearVelocity.z
              - (Ball.limitVelocities K sqrt cfg
                  (Ball.addVelocityCache b))._rigidBody.m_linearVelocity.z|
            ≤ 1 / 100 * K.UU_TO_BT / 2) ∧
        |(Ball._FinishPhysicsTick K sqrt b cfg)._rigidBody.m_angularVelocity.x
            - (Ball.limitVelocities K sqrt cfg
                (Ball.addVelocityCache b))._rigidBody.m_angularVelocity.x|
          ≤ 1 / 100000 / 2 ∧
        |(Ball._FinishPhysicsTick K sqrt b cfg)._rigidBody.m_angularVelocity.y
            - (Ball.limitVelocities K sqrt cfg
                (Ball.addVelocityCache b))._rigidBody.m_angularVelocity.y|
          ≤ 1 / 100000 / 2 ∧
        |(Ball._FinishPhysicsTick K sqrt b cfg)._rigidBody.m_angularVelocity.z
            - (Ball.limitVelocities K sqrt cfg
                (Ball.addVelocityCache b))._rigidBody.m_angularVelocity.z|
          ≤ 1 / 100000 / 2) := by
  have hb := Ball.limitVelocities_bounds K sqrt hsqrt cfg (Ball.addVelocityCache b)
  have hclamp :
      Vec.length sqrt
          (Ball.limitVelocities K sqrt cfg (Ball.addVelocityCache b))._rigidBody.m_linearVelocity
        ≤ cfg.ballMaxSpeed * K.UU_TO_BT ∧
      Vec.length sqrt
          (Ball.limitVelocities K sqrt cfg (Ball.addVelocityCache b))._rigidBody.m_angularVelocity
        ≤ K.BALL_MAX_ANG_SPEED :=
    ⟨sqrt_le_of_le_mul_self sqrt hsqrt _ _ (Vec.length2_nonneg _) (mul_nonneg hmax hUU) hb.1,
      sqrt_le_of_le_mul_self sqrt hsqrt _ _ (Vec.length2_nonneg _) hang hb.2⟩
  refine ⟨hclamp, ?_, ?_⟩
  · intro hr
    rw [Ball.finishPhysicsTick_eq, Ball.physicsRounding_of_disabled K cfg _ hr]
    exact hclamp
  · intro hr
    have hlin : (Ball._FinishPhysicsTick K sqrt b cfg)._rigidBody.m_linearVelocity
        = RoundVec
            (Ball.limitVelocities K sqrt cfg
              (Ball.addVelocityCache b))._rigidBody.m_linearVelocity
            (1 / 100 * K.UU_TO_BT) := by
      rw [Ball.finishPhysicsTick_eq]
      simp only [Ball.physicsRounding, hr, if_true]
    have hangv : (Ball._FinishPhysicsTick K sqrt b cfg)._rigidBody.m_angularVelocity
        = RoundVec
            (Ball.limitVelocities K sqrt cfg
              (Ball.addVelocityCache b))._rigidBody.m_angularVelocity
            (1 / 100000) := by
      rw [Ball.finishPhysicsTick_eq]
      simp only [Ball.physicsRounding, hr, if_true]
    refine ⟨hlin, hangv, ?_, ?_⟩
    · intro hpos
      rw [hlin]
      exact RoundVec_near _ _ (by positivity)
    · rw [hangv]
      exact RoundVec_near _ _ (by norm_num)

/-- C2 amended, at a ball faster than both caps, over the reals with the real square
root: after `_FinishPhysicsTick` without rounding its speeds are within the caps. -/
theorem finishPhysicsTick_speed_cap_witness :
    Vec.length Real.sqrt
        (Ball._FinishPhysicsTick (defaultConst ℝ) Real.sqrt (fastBall ℝ)
          ⟨6000, false⟩)._rigidBody.m_linearVelocity
        ≤ (⟨6000, false⟩ : MutatorConfig ℝ).ballMaxSpeed * (defaultConst ℝ).UU_TO_BT ∧
      Vec.length Real.sqrt
        (Ball._FinishPhysicsTick (defaultConst ℝ) Real.sqrt (fastBall ℝ)
          ⟨6000, false⟩)._rigidBody.m_angularVelocity
        ≤ (defaultConst ℝ).BALL_MAX_ANG_SPEED :=
  (finishPhysicsTick_speed_cap (defaultConst ℝ) Real.sqrt
    (fun x hx => ⟨Real.sqrt_nonneg x, Real.mul_self_sqrt hx⟩) (fastBall ℝ) ⟨6000, false⟩
    (by norm_num) (by norm_num [defaultConst]) (by norm_num [defaultConst])).2.1 rfl

end SpeedCap

/-! ## Serialization round trip -/

section Serialization

variable {F : Type}

theorem StateField.read_write (s r : BallState F) (f : StateField) (rest : List F) :
    StateField.read r f (StateField.write s f ++ rest) = some (StateField.copy s r f, rest) := by
  cases f <;> rfl

theorem BallState.deserialize_serialize (fields : List StateField) (s r : BallState F)
    (rest : List F) :
    BallState.Deserialize fields r (BallState.Serialize fields s ++ rest)
      = some (fields.foldl (fun acc f => StateField.copy s acc f) r, rest) := by
  induction fields generalizing r with
  | nil => rfl
  | cons f fs ih =>
    simp only [BallState.Serialize, BallState.Deserialize, List.append_assoc,
      StateField.read_write, List.foldl_cons]
    exact ih _

theorem BallState.foldl_copy_get {α : Type} (s : BallState F) (g : BallState F → α)
    (f0 : StateField) (hset : ∀ r, g (StateField.copy s r f0) = g s)
    (hkeep : ∀ r f, g (StateField.copy s r f) = g s ∨ g (StateField.copy s r f) = g r)
    (fields : List StateField) (r : BallState F) (h : f0 ∈ fields ∨ g r = g s) :
    g (fields.foldl (fun acc f => StateField.copy s acc f) r) = g s := by
  induction fields generalizing r with
  | nil =>
    rcases h with h | h
    · exact absurd h (List.not_mem_nil _)
    · exact h
  | cons f fs ih =>
    rw [List.foldl_cons]
    apply ih
    rcases h with h | h
    · rcases List.mem_cons.mp h with h | h
      · right
        rw [← h]
        exact hset r
      · left
        exact h
    · right
      rcases hkeep r f with h2 | h2
      · exact h2
      · rw [h2, h]

theorem BallState.foldl_copy_fields (fields : List StateField) (s r : BallState F) :
    let t := fields.foldl (fun acc f => StateField.copy s acc f) r
    (StateField.pos ∈ fields → t.pos = s.pos) ∧
      (StateField.vel ∈ fields → t.vel = s.vel) ∧
      (StateField.angVel ∈ fields → t.angVel = s.angVel) ∧
      (StateField.yTargetDir ∈ fields → t.hsInfo.yTargetDir = s.hsInfo.yTargetDir) ∧
      (StateField.curTargetSpeed ∈ fields → t.hsInfo.curTargetSpeed = s.hsInfo.curTargetSpeed) ∧
      (StateField.timeSinceHit ∈ fields → t.hsInfo.timeSinceHit = s.hsInfo.timeSinceHit) := by
  refine ⟨fun h => ?_, fun h => ?_, fun h => ?_, fun h => ?_, fun h => ?_, fun h => ?_⟩
  · exact BallState.foldl_copy_get s (fun u => u.pos) StateField.pos (fun _ => rfl)
      (fun r f => by cases f <;> simp [StateField.copy]) fields r (Or.inl h)
  · exact BallState.foldl_copy_get s (fun u => u.vel) StateField.vel (fun _ => rfl)
      (fun r f => by cases f <;> simp [StateField.copy]) fields r (Or.inl h)
  · exact BallState.foldl_copy_get s (fun u => u.angVel) StateField.angVel (fun _ => rfl)
      (fun r f => by cases f <;> simp [StateField.copy]) fields r (Or.inl h)
  · exact BallState.foldl_copy_get s (fun u => u.hsInfo.yTargetDir) StateField.yTargetDir
      (fun _ => rfl) (fun r f => by cases f <;> simp [StateField.copy]) fields r (Or.inl h)
  · exact BallState.foldl_copy_get s (fun u => u.hsInfo.curTargetSpeed)
      StateField.curTargetSpeed (fun _ => rfl)
      (fun r f => by cases f <;> simp [StateField.copy]) fields r (Or.inl h)
  · exact BallState.foldl_copy_get s (fun u => u.hsInfo.timeSinceHit) StateField.timeSinceHit
      (fun _ => rfl) (fun r f => by cases f <;> simp [StateField.copy]) fields r (Or.inl h)

variable [LinearOrderedField F]

theorem BallState.matches_zero_margins (a b : BallState F) : a.Matches b 0 0 0 = false := by
  have h : ¬ Vec.DistSq a.pos b.pos < 0 := not_lt.mpr (Vec.DistSq_nonneg _ _)
  simp [BallState.Matches, h]

theorem BallState.matches_of_eq (a b : BallState F) (marginPos marginVel marginAngVel : F)
    (hp : b.pos = a.pos) (hv : b.vel = a.vel) (ha : b.angVel = a.angVel)
    (h1 : 0 < marginPos * marginPos) (h2 : 0 < marginVel * marginVel)
    (h3 : 0 < marginAngVel * marginAngVel) :
    a.Matches b marginPos marginVel marginAngVel = true := by
  simp only [BallState.Matches, hp, hv, ha, Vec.DistSq_self, Bool.and_eq_true, decide_eq_true_eq]
  exact ⟨⟨h1, h2⟩, h3⟩

/-- C4 as stated fails: the sample state written with the fields `pos, vel, angVel` and
read back is the sample state again, field for field, and `Matches` with all three
margins zero still reports no match, because its comparisons are strict. -/
theorem serialize_roundtrip_matches_counterexample :
    BallState.Deserialize BallState.kinematicFields (sampleState ℚ)
        (BallState.Serialize BallState.kinematicFields (sampleState ℚ))
      = some (sampleState ℚ, []) ∧
    (sampleState ℚ).Matches (sampleState ℚ) 0 0 0 = false :=
  ⟨rfl, BallState.matches_zero_margins _ _⟩

/-- C4, amended: for every field list, `Serialize` followed by `Deserialize` (into any
state `r`, with any data `rest` following in the stream) succeeds, consumes exactly what
was written and yields a state `t` whose listed fields equal those of `s` exactly; when
`pos`, `vel` and `angVel` are listed, `s.Matches(t, ...)` is true whenever each squared
margin `margin * margin`, the right-hand side that `Matches` compares with, is greater
than zero; with all three margins zero `Matches` is false. -/
theorem serialize_roundtrip (fields : List StateField) (s r : BallState F) (rest : List F) :
    ∃ t : BallState F,
      BallState.Deserialize fields r (BallState.Serialize fields s ++ rest) = some (t, rest) ∧
      (StateField.pos ∈ fields → t.pos = s.pos) ∧
      (StateField.vel ∈ fields → t.vel = s.vel) ∧
      (StateField.angVel ∈ fields → t.angVel = s.angVel) ∧
      (StateField.yTargetDir ∈ fields → t.hsInfo.yTargetDir = s.hsInfo.yTargetDir) ∧
      (StateField.curTargetSpeed ∈ fields → t.hsInfo.curTargetSpeed = s.hsInfo.curTargetSpeed) ∧
      (StateField.timeSinceHit ∈ fields → t.hsInfo.timeSinceHit = s.hsInfo.timeSinceHit) ∧
      (StateField.pos ∈ fields → StateField.vel ∈ fields → StateField.angVel ∈ fields →
        ∀ marginPos marginVel marginAngVel : F,
          0 < marginPos * marginPos → 0 < marginVel * marginVel →
          0 < marginAngVel * marginAngVel →
          s.Matches t marginPos marginVel marginAngVel = true) ∧
      s.Matches t 0 0 0 = false := by
  refine ⟨_, BallState.deserialize_serialize fields s r rest, ?_⟩
  have h := BallState.foldl_copy_fields fields s r
  refine ⟨h.1, h.2.1, h.2.2.1, h.2.2.2.1, h.2.2.2.2.1, h.2.2.2.2.2, ?_,
    BallState.matches_zero_margins _ _⟩
  intro hp hv ha mp mv ma h1 h2 h3
  exact BallState.matches_of_eq _ _ _ _ _ (h.1 hp) (h.2.1 hv) (h.2.2.1 ha) h1 h2 h3

/-- C4 amended, at the sample state written with `pos, vel, angVel` and read into a state
of zeros: the read succeeds and the state read matches the sample state with the default
margins 0.8, 0.4 and 0.02. -/
theorem serialize_roundtrip_witness :
    ∃ t : BallState ℚ,
      BallState.Deserialize BallState.kinematicFields
          ⟨⟨0, 0, 0⟩, ⟨0, 0, 0⟩, ⟨0, 0, 0⟩, ⟨0, 0, 0⟩⟩
          (BallState.Serialize BallState.kinematicFields (sampleState ℚ) ++ []) = some (t, []) ∧
        (sampleState ℚ).Matches t (4 / 5) (2 / 5) (1 / 50) = true := by
  obtain ⟨t, h1, _, _, _, _, _, _, h2, _⟩ :=
    serialize_roundtrip BallState.kinematicFields (sampleState ℚ)
      ⟨⟨0, 0, 0⟩, ⟨0, 0, 0⟩, ⟨0, 0, 0⟩, ⟨0, 0, 0⟩⟩ []
  exact ⟨t, h1, h2 (by decide) (by decide) (by decide) _ _ _ (by norm_num) (by norm_num)
    (by norm_num)⟩

end Serialization

/-! ## Heatseeker speed-up on hits -/

section HitRamp

variable {F : Type} [LinearOrderedField F]

theorem Ball.preTickUpdate_hsInfo (K : RLConst F) (M : MathOps F) (b : Ball F) (tickTime : F) :
    (Ball._PreTickUpdate K M b GameMode.HEATSEEKER tickTime)._internalState.hsInfo
      = if b._internalState.hsInfo.yTargetDir ≠ 0 then
          { b._internalState.hsInfo with
            timeSinceHit := b._internalState.hsInfo.timeSinceHit + tickTime }
        else b._internalState.hsInfo := by
  by_cases h : b._internalState.hsInfo.yTargetDir = 0
  · simp [Ball._PreTickUpdate, Ball.GetState, h]
  · simp [Ball._PreTickUpdate, Ball.GetState, h]

theorem Ball.onHit_hsInfo (K : RLConst F) (b : Ball F) (car : Car) :
    (Ball._OnHit K b GameMode.HEATSEEKER car)._internalState.hsInfo
      = if K.Heatseeker.MIN_SPEEDUP_INTERVAL < b._internalState.hsInfo.timeSinceHit ∨
            b._internalState.hsInfo.yTargetDir = 0 then
          { yTargetDir := if car.team = Team.BLUE then 1 else -1
            curTargetSpeed :=
              RS_MIN (b._internalState.hsInfo.curTargetSpeed + K.Heatseeker.TARGET_SPEED_INCREMENT)
                K.Heatseeker.MAX_SPEED
            timeSinceHit := 0 }
        else
          { b._internalState.hsInfo with yTargetDir := if car.team = Team.BLUE then 1 else -1 } := by
  by_cases h : K.Heatseeker.MIN_SPEEDUP_INTERVAL < b._internalState.hsInfo.timeSinceHit ∨
      b._internalState.hsInfo.yTargetDir = 0
  · rw [if_pos h]
    simp [Ball._OnHit, h]
  · rw [if_neg h]
    simp [Ball._OnHit, h]

theorem Ball.teamSign_ne_zero (car : Car) : (if car.team = Team.BLUE then (1 : F) else -1) ≠ 0 := by
  split
  · exact one_ne_zero
  · exact neg_ne_zero.mpr one_ne_zero

theorem Ball.runEvents_append (K : RLConst F) (M : MathOps F) (gameMode : GameMode) (b : Ball F)
    (es fs : List (TickEvent F)) :
    Ball.runEvents K M gameMode b (es ++ fs)
      = Ball.runEvents K M gameMode (Ball.runEvents K M gameMode b es) fs := by
  induction es generalizing b with
  | nil => rfl
  | cons e es ih => exact ih _

theorem Ball.elapsed_nonneg (es : List (TickEvent F))
    (hnn : ∀ t, TickEvent.preTick t ∈ es → 0 ≤ t) : 0 ≤ Ball.elapsed es := by
  induction es with
  | nil => exact le_refl _
  | cons e es ih =>
    have h := ih (fun t ht => hnn t (List.mem_cons_of_mem _ ht))
    cases e with
    | preTick t =>
      have ht := hnn t (List.mem_cons_self _ _)
      simp only [Ball.elapsed]
      exact add_nonneg ht h
    | hit c => exact h

/-- While the time since the last speed-up stays within the interval, a run of pre-ticks
and hits leaves `curTargetSpeed` alone and adds its tick times to `timeSinceHit`. -/
theorem Ball.runEvents_within_interval (K : RLConst F) (M : MathOps F)
    (es : List (TickEvent F)) (b : Ball F)
    (hy : b._internalState.hsInfo.yTargetDir ≠ 0)
    (hnn : ∀ t, TickEvent.preTick t ∈ es → 0 ≤ t)
    (hle : b._internalState.hsInfo.timeSinceHit + Ball.elapsed es
      ≤ K.Heatseeker.MIN_SPEEDUP_INTERVAL) :
    (Ball.runEvents K M GameMode.HEATSEEKER b es)._internalState.hsInfo.curTargetSpeed
        = b._internalState.hsInfo.curTargetSpeed ∧
      (Ball.runEvents K M GameMode.HEATSEEKER b es)._internalState.hsInfo.timeSinceHit
        = b._internalState.hsInfo.timeSinceHit + Ball.elapsed es ∧
      (Ball.runEvents K M GameMode.HEATSEEKER b es)._internalState.hsInfo.yTargetDir ≠ 0 := by
  induction es generalizing b with
  | nil => exact ⟨rfl, by simp [Ball.runEvents, Ball.elapsed], hy⟩
  | cons e es ih =>
    have hnn2 : ∀ t, TickEvent.preTick t ∈ es → 0 ≤ t :=
      fun t ht => hnn t (List.mem_cons_of_mem _ ht)
    cases e with
    | preTick t =>
      have hs := Ball.preTickUpdate_hsInfo K M b t
      rw [if_pos hy] at hs
      simp only [Ball.elapsed] at hle ⊢
      have h := ih (Ball._PreTickUpdate K M b GameMode.HEATSEEKER t) (by rw [hs]; exact hy) hnn2
        (by rw [hs]; simpa [add_assoc] using hle)
      simp only [Ball.runEvents, Ball.applyEvent]
      rw [hs] at h
      refine ⟨h.1, ?_, h.2.2⟩
      rw [h.2.1, add_assoc]
    | hit c =>
      simp only [Ball.elapsed] at hle ⊢
      have hts : ¬ (K.Heatseeker.MIN_SPEEDUP_INTERVAL < b._internalState.hsInfo.timeSinceHit ∨
          b._internalState.hsInfo.yTargetDir = 0) := by
        intro h
        rcases h with h | h
        · have h0 := Ball.elapsed_nonneg es hnn2
          linarith
        · exact hy h
      have hs := Ball.onHit_hsInfo K b c
      rw [if_neg hts] at hs
      have h := ih (Ball._OnHit K b GameMode.HEATSEEKER c)
        (by rw [hs]; exact Ball.teamSign_ne_zero c) hnn2 (by rw [hs]; exact hle)
      simp only [Ball.runEvents, Ball.applyEvent]
      rw [hs] at h
      exact h

/-- A run of pre-ticks alone from a ball with a target leaves `curTargetSpeed` and
`yTargetDir` alone and adds the tick times to `timeSinceHit`. -/
theorem Ball.runEvents_preTicks (K : RLConst F) (M : MathOps F) (ticks : List F) (b : Ball F)
    (hy : b._internalState.hsInfo.yTargetDir ≠ 0) :
    (Ball.runEvents K M GameMode.HEATSEEKER b
        (ticks.map TickEvent.preTick))._internalState.hsInfo
      = { b._internalState.hsInfo with
          timeSinceHit := b._internalState.hsInfo.timeSinceHit + ticks.sum } := by
  induction ticks generalizing b with
  | nil => simp [Ball.runEvents]
  | cons t ts ih =>
    have hs := Ball.preTickUpdate_hsInfo K M b t
    rw [if_pos hy] at hs
    simp only [List.map_cons, Ball.runEvents, Ball.applyEvent, List.sum_cons]
    rw [ih _ (by rw [hs]; exact hy), hs]
    simp [add_assoc]

/-- C7 as stated fails: from the sample ball (`yTargetDir = 1`, `timeSinceHit = 0.9`,
`curTargetSpeed = 2900`) a first hit does not speed the ball up and so does not reset
`timeSinceHit`; after one pre-tick of 0.2 s, less than `MIN_SPEEDUP_INTERVAL = 1`, a second
hit finds `timeSinceHit = 1.1` and raises `curTargetSpeed` to 2985, whatever the math
helpers compute. -/
theorem hit_rampup_counterexample :
    (1 / 5 : ℚ) < (defaultConst ℚ).Heatseeker.MIN_SPEEDUP_INTERVAL ∧
    ∀ M : MathOps ℚ,
      (Ball.runEvents (defaultConst ℚ) M GameMode.HEATSEEKER (sampleBall ℚ)
          [TickEvent.hit ⟨Team.BLUE⟩,
            TickEvent.preTick (1 / 5)])._internalState.hsInfo.curTargetSpeed = 2900 ∧
      (Ball.runEvents (defaultConst ℚ) M GameMode.HEATSEEKER (sampleBall ℚ)
          [TickEvent.hit ⟨Team.BLUE⟩, TickEvent.preTick (1 / 5),
            TickEvent.hit ⟨Team.BLUE⟩])._internalState.hsInfo.curTargetSpeed = 2985 := by
  refine ⟨by norm_num [defaultConst], fun M => ?_⟩
  simp only [Ball.runEvents, Ball.applyEvent]
  have h1 : (Ball._OnHit (defaultConst ℚ) (sampleBall ℚ) GameMode.HEATSEEKER
      ⟨Team.BLUE⟩)._internalState.hsInfo = ⟨1, 2900, 9 / 10⟩ := by
    rw [Ball.onHit_hsInfo]
    norm_num [sampleBall, sampleState, defaultConst]
  have h2 : (Ball._PreTickUpdate (defaultConst ℚ) M
      (Ball._OnHit (defaultConst ℚ) (sampleBall ℚ) GameMode.HEATSEEKER ⟨Team.BLUE⟩)
      GameMode.HEATSEEKER (1 / 5))._internalState.hsInfo = ⟨1, 2900, 11 / 10⟩ := by
    rw [Ball.preTickUpdate_hsInfo, h1]
    norm_num
  constructor
  · rw [h2]
  · rw [Ball.onHit_hsInfo, h2]
    norm_num [defaultConst, RS_MIN]

/-- C7, amended: in HEATSEEKER mode time is counted from the last hit that sped the ball
up. A hit `car0` arriving with `timeSinceHit > MIN_SPEEDUP_INTERVAL` or `yTargetDir = 0`
sets `curTargetSpeed` to `RS_MIN(curTargetSpeed + TARGET_SPEED_INCREMENT, MAX_SPEED)` and
resets `timeSinceHit`. After it, through calls `evs` of `_PreTickUpdate` (tick times
non-negative) and `_OnHit` with total tick time at most `MIN_SPEEDUP_INTERVAL`, followed
by further pre-ticks `ticks`, `curTargetSpeed` is unchanged and `timeSinceHit` is the total
tick time; the hit `car` arriving then leaves `curTargetSpeed` unchanged when that total
is at most `MIN_SPEEDUP_INTERVAL` and sets it to
`RS_MIN(curTargetSpeed + TARGET_SPEED_INCREMENT, MAX_SPEED)` when the total is larger. -/
theorem hit_rampup_since_last_speedup (K : RLConst F) (M : MathOps F) (b0 : Ball F)
    (car0 car : Car) (evs : List (TickEvent F)) (ticks : List F)
    (hq : K.Heatseeker.MIN_SPEEDUP_INTERVAL < b0._internalState.hsInfo.timeSinceHit ∨
      b0._internalState.hsInfo.yTargetDir = 0)
    (hnn : ∀ t, TickEvent.preTick t ∈ evs → 0 ≤ t)
    (hle : Ball.elapsed evs ≤ K.Heatseeker.MIN_SPEEDUP_INTERVAL) :
    let b1 := Ball._OnHit K b0 GameMode.HEATSEEKER car0
    let b2 := Ball.runEvents K M GameMode.HEATSEEKER b1 (evs ++ ticks.map TickEvent.preTick)
    let b3 := Ball._OnHit K b2 GameMode.HEATSEEKER car
    b1._internalState.hsInfo.curTargetSpeed
        = RS_MIN (b0._internalState.hsInfo.curTargetSpeed + K.Heatseeker.TARGET_SPEED_INCREMENT)
            K.Heatseeker.MAX_SPEED ∧
      b1._internalState.hsInfo.timeSinceHit = 0 ∧
      b2._internalState.hsInfo.curTargetSpeed = b1._internalState.hsInfo.curTargetSpeed ∧
      b2._internalState.hsInfo.timeSinceHit = Ball.elapsed evs + ticks.sum ∧
      (Ball.elapsed evs + ticks.sum ≤ K.Heatseeker.MIN_SPEEDUP_INTERVAL →
        b3._internalState.hsInfo.curTargetSpeed = b2._internalState.hsInfo.curTargetSpeed) ∧
      (K.Heatseeker.MIN_SPEEDUP_INTERVAL < Ball.elapsed evs + ticks.sum →
        b3._internalState.hsInfo.curTargetSpeed
          = RS_MIN
              (b2._internalState.hsInfo.curTargetSpeed + K.Heatseeker.TARGET_SPEED_INCREMENT)
              K.Heatseeker.MAX_SPEED) := by
  intro b1 b2 b3
  have hs1 : b1._internalState.hsInfo
      = { yTargetDir := if car0.team = Team.BLUE then 1 else -1
          curTargetSpeed :=
            RS_MIN (b0._internalState.hsInfo.curTargetSpeed + K.Heatseeker.TARGET_SPEED_INCREMENT)
              K.Heatseeker.MAX_SPEED
          timeSinceHit := 0 } := by
    simp only [b1]
    rw [Ball.onHit_hsInfo, if_pos hq]
  have hy1 : b1._internalState.hsInfo.yTargetDir ≠ 0 := by
    rw [hs1]
    exact Ball.teamSign_ne_zero car0
  have ht1 : b1._internalState.hsInfo.timeSinceHit = 0 := by rw [hs1]
  have hmid := Ball.runEvents_within_interval K M evs b1 hy1 hnn (by rw [ht1, zero_add]; exact hle)
  have hs2 : b2._internalState.hsInfo
      = { (Ball.runEvents K M GameMode.HEATSEEKER b1 evs)._internalState.hsInfo with
          timeSinceHit :=
            (Ball.runEvents K M GameMode.HEATSEEKER b1 evs)._internalState.hsInfo.timeSinceHit
              + ticks.sum } := by
    simp only [b2]
    rw [Ball.runEvents_append, Ball.runEvents_preTicks K M ticks _ hmid.2.2]
  have hc2 : b2._internalState.hsInfo.curTargetSpeed = b1._internalState.hsInfo.curTargetSpeed := by
    rw [hs2]
    exact hmid.1
  have ht2 : b2._internalState.hsInfo.timeSinceHit = Ball.elapsed evs + ticks.sum := by
    rw [hs2]
    simp only
    rw [hmid.2.1, ht1, zero_add]
  have hy2 : b2._internalState.hsInfo.yTargetDir ≠ 0 := by
    rw [hs2]
    exact hmid.2.2
  refine ⟨by rw [hs1], ht1, hc2, ht2, ?_, ?_⟩
  · intro h
    have hno : ¬ (K.Heatseeker.MIN_SPEEDUP_INTERVAL < b2._internalState.hsInfo.timeSinceHit ∨
        b2._internalState.hsInfo.yTargetDir = 0) := by
      rw [ht2]
      intro h'
      rcases h' with h' | h'
      · exact absurd h (not_le.mpr h')
      · exact hy2 h'
    simp only [b3]
    rw [Ball.onHit_hsInfo, if_neg hno]
  · intro h
    simp only [b3]
    rw [Ball.onHit_hsInfo, if_pos (Or.inl (by rw [ht2]; exact h))]

/-- C7 amended, from kickoff: the first hit raises the target speed to 2985; 0.5 s later a
second hit and, 0.25 s after it, a further 0.5 s of pre-ticks leave it at 2985; the hit
arriving then, 1.25 s after the first, raises it to 3070. -/
theorem hit_rampup_since_last_speedup_witness :
    Ball.elapsed [TickEvent.preTick (1 / 2 : ℚ), TickEvent.hit ⟨Team.ORANGE⟩,
        TickEvent.preTick (1 / 4)] ≤ (defaultConst ℚ).Heatseeker.MIN_SPEEDUP_INTERVAL ∧
    ∀ M : MathOps ℚ,
      (Ball.runEvents (defaultConst ℚ) M GameMode.HEATSEEKER
          (Ball._OnHit (defaultConst ℚ) (kickoffBall ℚ) GameMode.HEATSEEKER ⟨Team.BLUE⟩)
          ([TickEvent.preTick (1 / 2), TickEvent.hit ⟨Team.ORANGE⟩, TickEvent.preTick (1 / 4)]
            ++ [(1 / 2 : ℚ)].map TickEvent.preTick))._internalState.hsInfo.curTargetSpeed = 2985 ∧
      (Ball._OnHit (defaultConst ℚ)
          (Ball.runEvents (defaultConst ℚ) M GameMode.HEATSEEKER
            (Ball._OnHit (defaultConst ℚ) (kickoffBall ℚ) GameMode.HEATSEEKER ⟨Team.BLUE⟩)
            ([TickEvent.preTick (1 / 2), TickEvent.hit ⟨Team.ORANGE⟩, TickEvent.preTick (1 / 4)]
              ++ [(1 / 2 : ℚ)].map TickEvent.preTick))
          GameMode.HEATSEEKER ⟨Team.BLUE⟩)._internalState.hsInfo.curTargetSpeed = 3070 := by
  have hle : Ball.elapsed [TickEvent.preTick (1 / 2 : ℚ), TickEvent.hit ⟨Team.ORANGE⟩,
      TickEvent.preTick (1 / 4)] ≤ (defaultConst ℚ).Heatseeker.MIN_SPEEDUP_INTERVAL := by
    norm_num [Ball.elapsed, defaultConst]
  refine ⟨hle, fun M => ?_⟩
  have h := hit_rampup_since_last_speedup (defaultConst ℚ) M (kickoffBall ℚ) ⟨Team.BLUE⟩
    ⟨Team.BLUE⟩ [TickEvent.preTick (1 / 2), TickEvent.hit ⟨Team.ORANGE⟩, TickEvent.preTick (1 / 4)]
    [1 / 2] (Or.inr rfl)
    (by
      intro t ht
      simp only [List.mem_cons, TickEvent.preTick.injEq, List.mem_singleton, reduceCtorEq,
        false_or, List.not_mem_nil, or_false] at ht
      rcases ht with ht | ht <;> rw [ht] <;> norm_num)
    hle
  obtain ⟨h1, _, h2, _, _, h3⟩ := h
  have e1 : (Ball._OnHit (defaultConst ℚ) (kickoffBall ℚ) GameMode.HEATSEEKER
      ⟨Team.BLUE⟩)._internalState.hsInfo.curTargetSpeed = 2985 := by
    rw [h1]
    norm_num [kickoffBall, defaultConst, RS_MIN]
  rw [e1] at h2
  refine ⟨h2, ?_⟩
  rw [h3 (by norm_num [Ball.elapsed, defaultConst]), h2]
  norm_num [defaultConst, RS_MIN]

end HitRamp

/-! ## Reading the state -/

section GetStateFacts

variable {F : Type} [LinearOrderedField F]

/-- C11: two consecutive `GetState` calls return equal states (and the second leaves the
ball as the first left it), and a `GetState` call leaves the engine position, linear
velocity and angular velocity, the impulse cache and the cached `hsInfo` unchanged; the
cached state after the call is the state returned. -/
theorem getState_idempotent (K : RLConst F) (b : Ball F) :
    (Ball.GetState K (Ball.GetState K b).2).1 = (Ball.GetState K b).1 ∧
    (Ball.GetState K (Ball.GetState K b).2).2 = (Ball.GetState K b).2 ∧
    (Ball.GetState K b).2._rigidBody.m_worldTransform.m_origin
      = b._rigidBody.m_worldTransform.m_origin ∧
    (Ball.GetState K b).2._rigidBody.m_linearVelocity = b._rigidBody.m_linearVelocity ∧
    (Ball.GetState K b).2._rigidBody.m_angularVelocity = b._rigidBody.m_angularVelocity ∧
    (Ball.GetState K b).2._rigidBody = b._rigidBody ∧
    (Ball.GetState K b).2._velocityImpulseCache = b._velocityImpulseCache ∧
    (Ball.GetState K b).2._internalState.hsInfo = b._internalState.hsInfo ∧
    (Ball.GetState K b).2._internalState = (Ball.GetState K b).1 :=
  ⟨rfl, rfl, rfl, rfl, rfl, rfl, rfl, rfl, rfl⟩

end GetStateFacts

/-! ## Frame of the homing hooks -/

section HomingFrame

variable {F : Type} [LinearOrderedField F]

theorem RS_MIN_eq_min (a b : F) : RS_MIN a b = min a b := by
  unfold RS_MIN
  split
  · next h => exact (min_eq_left (le_of_lt h)).symm
  · next h => exact (min_eq_right (not_lt.mp h)).symm

theorem RS_MIN_le_right (a b : F) : RS_MIN a b ≤ b := by
  rw [RS_MIN_eq_min]
  exact min_le_right a b

/-- C13: in HEATSEEKER mode `_OnHit` sets `yTargetDir` to 1 for a BLUE car and to -1
otherwise in every case; when `timeSinceHit > MIN_SPEEDUP_INTERVAL` or the old
`yTargetDir` is 0 it sets `timeSinceHit` to 0 and `curTargetSpeed` to
`min(curTargetSpeed + TARGET_SPEED_INCREMENT, MAX_SPEED)`, and otherwise it leaves both
unchanged; nothing else of the ball changes. -/
theorem onHit_post_state (K : RLConst F) (b : Ball F) (car : Car) :
    let b' := Ball._OnHit K b GameMode.HEATSEEKER car
    b'._internalState.hsInfo.yTargetDir = (if car.team = Team.BLUE then 1 else -1) ∧
    (K.Heatseeker.MIN_SPEEDUP_INTERVAL < b._internalState.hsInfo.timeSinceHit ∨
        b._internalState.hsInfo.yTargetDir = 0 →
      b'._internalState.hsInfo.timeSinceHit = 0 ∧
        b'._internalState.hsInfo.curTargetSpeed
          = min (b._internalState.hsInfo.curTargetSpeed + K.Heatseeker.TARGET_SPEED_INCREMENT)
              K.Heatseeker.MAX_SPEED) ∧
    (¬ (K.Heatseeker.MIN_SPEEDUP_INTERVAL < b._internalState.hsInfo.timeSinceHit ∨
          b._internalState.hsInfo.yTargetDir = 0) →
      b'._internalState.hsInfo.timeSinceHit = b._internalState.hsInfo.timeSinceHit ∧
        b'._internalState.hsInfo.curTargetSpeed = b._internalState.hsInfo.curTargetSpeed) ∧
    b'._internalState.pos = b._internalState.pos ∧
    b'._internalState.vel = b._internalState.vel ∧
    b'._internalState.angVel = b._internalState.angVel ∧
    b'._rigidBody = b._rigidBody ∧
    b'._velocityImpulseCache = b._velocityImpulseCache := by
  intro b'
  have hs := Ball.onHit_hsInfo K b car
  have hframe : b'._internalState.pos = b._internalState.pos ∧
      b'._internalState.vel = b._internalState.vel ∧
      b'._internalState.angVel = b._internalState.angVel ∧
      b'._rigidBody = b._rigidBody ∧
      b'._velocityImpulseCache = b._velocityImpulseCache := by
    simp only [b', Ball._OnHit, if_true]
    split <;> exact ⟨rfl, rfl, rfl, rfl, rfl⟩
  refine ⟨?_, ?_, ?_, hframe⟩
  · simp only [b']
    rw [hs]
    split <;> rfl
  · intro h
    simp only [b']
    rw [hs, if_pos h, RS_MIN_eq_min]
    exact ⟨rfl, rfl⟩
  · intro h
    simp only [b']
    rw [hs, if_neg h]
    exact ⟨rfl, rfl⟩

/-- C13, at the kickoff ball (no target yet) hit by an ORANGE car: the target becomes -1,
the timer 0 and the target speed min(2900 + 85, 4600) = 2985. -/
theorem onHit_post_state_witness :
    (Ball._OnHit (defaultConst ℚ) (kickoffBall ℚ) GameMode.HEATSEEKER
      ⟨Team.ORANGE⟩)._internalState.hsInfo = ⟨-1, 2985, 0⟩ := by
  have h := onHit_post_state (defaultConst ℚ) (kickoffBall ℚ) ⟨Team.ORANGE⟩
  obtain ⟨h1, h2, _⟩ := h
  obtain ⟨h3, h4⟩ := h2 (Or.inr rfl)
  have e : min ((kickoffBall ℚ)._internalState.hsInfo.curTargetSpeed
      + (defaultConst ℚ).Heatseeker.TARGET_SPEED_INCREMENT)
      (defaultConst ℚ).Heatseeker.MAX_SPEED = 2985 := by
    norm_num [kickoffBall, defaultConst]
  rw [e] at h4
  have e1 : (if (⟨Team.ORANGE⟩ : Car).team = Team.BLUE then (1 : ℚ) else -1) = -1 := by
    simp
  rw [e1] at h1
  generalize (Ball._OnHit (defaultConst ℚ) (kickoffBall ℚ) GameMode.HEATSEEKER
    ⟨Team.ORANGE⟩)._internalState.hsInfo = hs at h1 h3 h4
  cases hs with
  | mk y c t =>
    simp only at h1 h3 h4
    rw [h1, h3, h4]

/-- C15: when the game mode is not HEATSEEKER or `yTargetDir = 0`, `_PreTickUpdate` leaves
the engine position, linear velocity and angular velocity, the impulse cache and all of
`hsInfo` (so `timeSinceHit`) unchanged. -/
theorem preTickUpdate_inactive (K : RLConst F) (M : MathOps F) (b : Ball F)
    (gameMode : GameMode) (tickTime : F)
    (h : gameMode ≠ GameMode.HEATSEEKER ∨ b._internalState.hsInfo.yTargetDir = 0) :
    let b' := Ball._PreTickUpdate K M b gameMode tickTime
    b'._rigidBody.m_worldTransform.m_origin = b._rigidBody.m_worldTransform.m_origin ∧
    b'._rigidBody.m_linearVelocity = b._rigidBody.m_linearVelocity ∧
    b'._rigidBody.m_angularVelocity = b._rigidBody.m_angularVelocity ∧
    b'._rigidBody = b._rigidBody ∧
    b'._velocityImpulseCache = b._velocityImpulseCache ∧
    b'._internalState.hsInfo = b._internalState.hsInfo ∧
    b'._internalState.hsInfo.timeSinceHit = b._internalState.hsInfo.timeSinceHit := by
  intro b'
  by_cases hm : gameMode = GameMode.HEATSEEKER
  · have hy : b._internalState.hsInfo.yTargetDir = 0 := by
      rcases h with h | h
      · exact absurd hm h
      · exact h
    have e : b' = (Ball.GetState K b).2 := by
      simp [b', Ball._PreTickUpdate, Ball.GetState, hm, hy]
    rw [e]
    exact ⟨rfl, rfl, rfl, rfl, rfl, rfl, rfl⟩
  · have e : b' = b := by
      simp only [b', Ball._PreTickUpdate, if_neg hm]
    rw [e]
    exact ⟨rfl, rfl, rfl, rfl, rfl, rfl, rfl⟩

/-- C15, for the sample ball in SOCCAR mode and for the kickoff ball (`yTargetDir = 0`) in
HEATSEEKER mode, whatever the math helpers compute. -/
theorem preTickUpdate_inactive_witness :
    GameMode.SOCCAR ≠ GameMode.HEATSEEKER ∧
    (kickoffBall ℚ)._internalState.hsInfo.yTargetDir = 0 ∧
    ∀ M : MathOps ℚ,
      (Ball._PreTickUpdate (defaultConst ℚ) M (sampleBall ℚ) GameMode.SOCCAR
          (1 / 120))._rigidBody = (sampleBall ℚ)._rigidBody ∧
      (Ball._PreTickUpdate (defaultConst ℚ) M (kickoffBall ℚ) GameMode.HEATSEEKER
          (1 / 120))._internalState.hsInfo = (kickoffBall ℚ)._internalState.hsInfo :=
  ⟨by decide, rfl, fun M =>
    ⟨(preTickUpdate_inactive (defaultConst ℚ) M (sampleBall ℚ) GameMode.SOCCAR (1 / 120)
        (Or.inl (by decide))).2.2.2.1,
      (preTickUpdate_inactive (defaultConst ℚ) M (kickoffBall ℚ) GameMode.HEATSEEKER (1 / 120)
        (Or.inr rfl)).2.2.2.2.2.1⟩⟩

/-- In HEATSEEKER mode with `yTargetDir != 0` the cached `pos`, `vel` and `angVel` after
`_PreTickUpdate` are the ones that its `GetState()` call read from the engine body. -/
theorem Ball.preTickUpdate_cached (K : RLConst F) (M : MathOps F) (b : Ball F) (tickTime : F)
    (hy : b._internalState.hsInfo.yTargetDir ≠ 0) :
    (Ball._PreTickUpdate K M b GameMode.HEATSEEKER tickTime)._internalState.pos
        = (Ball.GetState K b).1.pos ∧
      (Ball._PreTickUpdate K M b GameMode.HEATSEEKER tickTime)._internalState.vel
        = (Ball.GetState K b).1.vel ∧
      (Ball._PreTickUpdate K M b GameMode.HEATSEEKER tickTime)._internalState.angVel
        = (Ball.GetState K b).1.angVel := by
  have hy2 : (Ball.GetState K b).2._internalState.hsInfo.yTargetDir ≠ 0 := hy
  simp only [Ball._PreTickUpdate, if_true, if_pos hy2]
  exact ⟨rfl, rfl, rfl⟩

/-- C16 as stated fails in its last clause: besides the engine linear velocity and
`timeSinceHit`, `_PreTickUpdate` writes the cached `pos`, `vel` and `angVel` through its
`GetState()` call. For a ball in HEATSEEKER mode with `yTargetDir = 1` whose cached `pos`
is (100, -200, 93) while the engine body is at (3, -4, 1.86), the cached `pos` after
`_PreTickUpdate` is (150, -200, 93), whatever the math helpers compute. -/
theorem preTickUpdate_active_frame_counterexample :
    (staleBall ℚ)._internalState.hsInfo.yTargetDir ≠ 0 ∧
    (staleBall ℚ)._internalState.pos = ⟨100, -200, 93⟩ ∧
    ∀ M : MathOps ℚ,
      (Ball._PreTickUpdate (defaultConst ℚ) M (staleBall ℚ) GameMode.HEATSEEKER
          (1 / 120))._internalState.pos = ⟨150, -200, 93⟩ ∧
      (Ball._PreTickUpdate (defaultConst ℚ) M (staleBall ℚ) GameMode.HEATSEEKER
          (1 / 120))._internalState.pos ≠ (staleBall ℚ)._internalState.pos := by
  have hy : (staleBall ℚ)._internalState.hsInfo.yTargetDir ≠ 0 := by
    norm_num [staleBall, sampleState]
  refine ⟨hy, rfl, fun M => ?_⟩
  have h := (Ball.preTickUpdate_cached (defaultConst ℚ) M (staleBall ℚ) (1 / 120) hy).1
  have e : (Ball.GetState (defaultConst ℚ) (staleBall ℚ)).1.pos = ⟨150, -200, 93⟩ := by
    norm_num [Ball.GetState, staleBall, defaultConst, Vec.scale]
  rw [h, e]
  refine ⟨rfl, ?_⟩
  norm_num [staleBall, sampleState]

/-- C16, amended: in HEATSEEKER mode with `yTargetDir != 0`, `_PreTickUpdate` adds exactly
`tickTime` to `timeSinceHit` and leaves `yTargetDir`, `curTargetSpeed`, the engine
position, the engine angular velocity and the impulse cache unchanged; besides the engine
linear velocity and `timeSinceHit` it writes the cached `pos`, `vel` and `angVel`, which
become the ones its `GetState()` call reads from the engine body. -/
theorem preTickUpdate_active_frame (K : RLConst F) (M : MathOps F) (b : Ball F) (tickTime : F)
    (hy : b._internalState.hsInfo.yTargetDir ≠ 0) :
    let b' := Ball._PreTickUpdate K M b GameMode.HEATSEEKER tickTime
    b'._internalState.hsInfo.timeSinceHit = b._internalState.hsInfo.timeSinceHit + tickTime ∧
    b'._internalState.hsInfo.yTargetDir = b._internalState.hsInfo.yTargetDir ∧
    b'._internalState.hsInfo.curTargetSpeed = b._internalState.hsInfo.curTargetSpeed ∧
    b'._rigidBody.m_worldTransform.m_origin = b._rigidBody.m_worldTransform.m_origin ∧
    b'._rigidBody.m_worldTransform = b._rigidBody.m_worldTransform ∧
    b'._rigidBody.m_angularVelocity = b._rigidBody.m_angularVelocity ∧
    b'._velocityImpulseCache = b._velocityImpulseCache ∧
    b'._internalState.pos = (Ball.GetState K b).1.pos ∧
    b'._internalState.vel = (Ball.GetState K b).1.vel ∧
    b'._internalState.angVel = (Ball.GetState K b).1.angVel := by
  intro b'
  have hs := Ball.preTickUpdate_hsInfo K M b tickTime
  rw [if_pos hy] at hs
  have hframe : b'._rigidBody.m_worldTransform = b._rigidBody.m_worldTransform ∧
      b'._rigidBody.m_angularVelocity = b._rigidBody.m_angularVelocity ∧
      b'._velocityImpulseCache = b._velocityImpulseCache ∧
      b'._internalState.pos = (Ball.GetState K b).1.pos ∧
      b'._internalState.vel = (Ball.GetState K b).1.vel ∧
      b'._internalState.angVel = (Ball.GetState K b).1.angVel := by
    have hy2 : (Ball.GetState K b).2._internalState.hsInfo.yTargetDir ≠ 0 := hy
    simp only [b', Ball._PreTickUpdate, if_true, if_pos hy2]
    exact ⟨rfl, rfl, rfl, rfl, rfl, rfl⟩
  refine ⟨?_, ?_, ?_, ?_, hframe⟩
  · simp only [b']
    rw [hs]
  · simp only [b']
    rw [hs]
  · simp only [b']
    rw [hs]
  · rw [hframe.1]

/-- C16 amended, for the sample ball (`yTargetDir = 1`, `timeSinceHit = 0.9`) and a tick of
1/120 s, whatever the math helpers compute. -/
theorem preTickUpdate_active_frame_witness :
    (sampleBall ℚ)._internalState.hsInfo.yTargetDir ≠ 0 ∧
    ∀ M : MathOps ℚ,
      (Ball._PreTickUpdate (defaultConst ℚ) M (sampleBall ℚ) GameMode.HEATSEEKER
          (1 / 120))._internalState.hsInfo.timeSinceHit = 9 / 10 + 1 / 120 ∧
      (Ball._PreTickUpdate (defaultConst ℚ) M (sampleBall ℚ) GameMode.HEATSEEKER
          (1 / 120))._velocityImpulseCache = ⟨1, 0, 0⟩ :=
  ⟨by norm_num [sampleBall, sampleState], fun M =>
    ⟨(preTickUpdate_active_frame (defaultConst ℚ) M (sampleBall ℚ) (1 / 120)
        (by norm_num [sampleBall, sampleState])).1,
      (preTickUpdate_active_frame (defaultConst ℚ) M (sampleBall ℚ) (1 / 120)
        (by norm_num [sampleBall, sampleState])).2.2.2.2.2.2.1⟩⟩

theorem Ball.onWorldCollision_of_no_flip (K : RLConst F) (b : Ball F) (gameMode : GameMode)
    (normal : Vec F)
    (h : ¬ (gameMode = GameMode.HEATSEEKER ∧ b._internalState.hsInfo.yTargetDir ≠ 0 ∧
      normal.y * b._internalState.hsInfo.yTargetDir
        ≤ -K.Heatseeker.WALL_BOUNCE_CHANGE_NORMAL_Y)) :
    Ball._OnWorldCollision K b gameMode normal = b := by
  by_cases hm : gameMode = GameMode.HEATSEEKER
  · by_cases hy : b._internalState.hsInfo.yTargetDir ≠ 0
    · have hle : ¬ normal.y * b._internalState.hsInfo.yTargetDir
          ≤ -K.Heatseeker.WALL_BOUNCE_CHANGE_NORMAL_Y := fun hle => h ⟨hm, hy, hle⟩
      simp only [Ball._OnWorldCollision, if_pos hm, if_pos hy, if_neg hle]
    · simp only [Ball._OnWorldCollision, if_pos hm, if_neg hy]
  · simp only [Ball._OnWorldCollision, if_neg hm]

theorem Ball.onWorldCollision_of_flip (K : RLConst F) (b : Ball F) (normal : Vec F)
    (hy : b._internalState.hsInfo.yTargetDir ≠ 0)
    (hle : normal.y * b._internalState.hsInfo.yTargetDir
      ≤ -K.Heatseeker.WALL_BOUNCE_CHANGE_NORMAL_Y) :
    Ball._OnWorldCollision K b GameMode.HEATSEEKER normal
      = { b with
          _internalState :=
            { b._internalState with
              hsInfo :=
                { b._internalState.hsInfo with
                  yTargetDir := -b._internalState.hsInfo.yTargetDir } } } := by
  unfold Ball._OnWorldCollision
  rw [if_pos rfl, if_pos hy, if_pos hle, mul_neg_one]

/-- Whatever the mode and the normal, `_OnWorldCollision` leaves `yTargetDir` or negates it
and changes nothing else. -/
theorem Ball.onWorldCollision_frame (K : RLConst F) (b : Ball F) (gameMode : GameMode)
    (normal : Vec F) :
    let b1 := Ball._OnWorldCollision K b gameMode normal
    (b1._internalState.hsInfo.yTargetDir = b._internalState.hsInfo.yTargetDir ∨
      b1._internalState.hsInfo.yTargetDir = -b._internalState.hsInfo.yTargetDir) ∧
    b1._internalState.hsInfo.curTargetSpeed = b._internalState.hsInfo.curTargetSpeed ∧
    b1._internalState.hsInfo.timeSinceHit = b._internalState.hsInfo.timeSinceHit ∧
    b1._internalState.pos = b._internalState.pos ∧
    b1._internalState.vel = b._internalState.vel ∧
    b1._internalState.angVel = b._internalState.angVel ∧
    b1._rigidBody = b._rigidBody ∧
    b1._velocityImpulseCache = b._velocityImpulseCache := by
  intro b1
  by_cases h : gameMode = GameMode.HEATSEEKER ∧ b._internalState.hsInfo.yTargetDir ≠ 0 ∧
      normal.y * b._internalState.hsInfo.yTargetDir ≤ -K.Heatseeker.WALL_BOUNCE_CHANGE_NORMAL_Y
  · obtain ⟨hm, hy, hle⟩ := h
    subst hm
    simp only [b1]
    rw [Ball.onWorldCollision_of_flip K b normal hy hle]
    exact ⟨Or.inr rfl, rfl, rfl, rfl, rfl, rfl, rfl, rfl⟩
  · have e : b1 = b := Ball.onWorldCollision_of_no_flip K b gameMode normal h
    rw [e]
    exact ⟨Or.inl rfl, rfl, rfl, rfl, rfl, rfl, rfl, rfl⟩

/-- C19: with `WALL_BOUNCE_CHANGE_NORMAL_Y > 0`, for `yTargetDir` one of -1, 0, 1 (and any
other value), calling `_OnWorldCollision` twice with the same normal gives the same ball,
so the same `yTargetDir`, as calling it once; a ball with `yTargetDir = 0` keeps
`yTargetDir = 0`; and `_OnWorldCollision` changes no field other than `yTargetDir`. -/
theorem onWorldCollision_idempotent (K : RLConst F) (b : Ball F) (gameMode : GameMode)
    (normal : Vec F) (hW : 0 < K.Heatseeker.WALL_BOUNCE_CHANGE_NORMAL_Y) :
    let b1 := Ball._OnWorldCollision K b gameMode normal
    let b2 := Ball._OnWorldCollision K b1 gameMode normal
    b2._internalState.hsInfo.yTargetDir = b1._internalState.hsInfo.yTargetDir ∧
    b2 = b1 ∧
    (b._internalState.hsInfo.yTargetDir = 0 → b1._internalState.hsInfo.yTargetDir = 0) ∧
    b1._internalState.hsInfo.curTargetSpeed = b._internalState.hsInfo.curTargetSpeed ∧
    b1._internalState.hsInfo.timeSinceHit = b._internalState.hsInfo.timeSinceHit ∧
    b1._internalState.pos = b._internalState.pos ∧
    b1._internalState.vel = b._internalState.vel ∧
    b1._internalState.angVel = b._internalState.angVel ∧
    b1._rigidBody = b._rigidBody ∧
    b1._velocityImpulseCache = b._velocityImpulseCache := by
  intro b1 b2
  have hframe := Ball.onWorldCollision_frame K b gameMode normal
  have hzero : b._internalState.hsInfo.yTargetDir = 0 →
      b1._internalState.hsInfo.yTargetDir = 0 := by
    intro h0
    have e : b1 = b := Ball.onWorldCollision_of_no_flip K b gameMode normal
      (fun h => h.2.1 h0)
    rw [e, h0]
  have hstable : b2 = b1 := by
    apply Ball.onWorldCollision_of_no_flip
    rintro ⟨hm, hy1, hle1⟩
    by_cases h : gameMode = GameMode.HEATSEEKER ∧ b._internalState.hsInfo.yTargetDir ≠ 0 ∧
        normal.y * b._internalState.hsInfo.yTargetDir
          ≤ -K.Heatseeker.WALL_BOUNCE_CHANGE_NORMAL_Y
    · obtain ⟨_, hy0, hle0⟩ := h
      have e : b1._internalState.hsInfo.yTargetDir = -b._internalState.hsInfo.yTargetDir := by
        simp only [b1, hm]
        rw [Ball.onWorldCollision_of_flip K b normal hy0 hle0]
      rw [e] at hle1
      have h2 : normal.y * -b._internalState.hsInfo.yTargetDir
          = -(normal.y * b._internalState.hsInfo.yTargetDir) := by ring
      rw [h2] at hle1
      linarith
    · have e : b1 = b := Ball.onWorldCollision_of_no_flip K b gameMode normal h
      rw [e] at hy1 hle1
      exact h ⟨hm, hy1, hle1⟩
  exact ⟨by rw [hstable], hstable, hzero, hframe.2⟩

/-- C19, for the sample ball (`yTargetDir = 1`) hitting the back wall (normal (0, -1, 0))
twice in HEATSEEKER mode: the target flips to -1 once and stays there. -/
theorem onWorldCollision_idempotent_witness :
    0 < (defaultConst ℚ).Heatseeker.WALL_BOUNCE_CHANGE_NORMAL_Y ∧
    Ball._OnWorldCollision (defaultConst ℚ)
        (Ball._OnWorldCollision (defaultConst ℚ) (sampleBall ℚ) GameMode.HEATSEEKER ⟨0, -1, 0⟩)
        GameMode.HEATSEEKER ⟨0, -1, 0⟩
      = Ball._OnWorldCollision (defaultConst ℚ) (sampleBall ℚ) GameMode.HEATSEEKER ⟨0, -1, 0⟩ :=
  ⟨by norm_num [defaultConst],
    (onWorldCollision_idempotent (defaultConst ℚ) (sampleBall ℚ) GameMode.HEATSEEKER ⟨0, -1, 0⟩
      (by norm_num [defaultConst])).2.1⟩

end HomingFrame

/-! ## Well-formedness of the homing sub-state -/

section WellFormedness

variable {F : Type} [LinearOrderedField F]

theorem Ball.preTickUpdate_target (K : RLConst F) (M : MathOps F) (b : Ball F)
    (gameMode : GameMode) (tickTime : F) :
    (Ball._PreTickUpdate K M b gameMode tickTime)._internalState.hsInfo.yTargetDir
        = b._internalState.hsInfo.yTargetDir ∧
      (Ball._PreTickUpdate K M b gameMode tickTime)._internalState.hsInfo.curTargetSpeed
        = b._internalState.hsInfo.curTargetSpeed := by
  by_cases hm : gameMode = GameMode.HEATSEEKER
  · subst hm
    rw [Ball.preTickUpdate_hsInfo]
    split <;> exact ⟨rfl, rfl⟩
  · have e : Ball._PreTickUpdate K M b gameMode tickTime = b := by
      simp only [Ball._PreTickUpdate, if_neg hm]
    rw [e]
    exact ⟨rfl, rfl⟩

theorem Ball.onHit_wellFormed (K : RLConst F) (b : Ball F) (gameMode : GameMode) (car : Car)
    (hwf : HeatseekerInfo.WellFormed K.Heatseeker.MAX_SPEED b._internalState.hsInfo) :
    HeatseekerInfo.WellFormed K.Heatseeker.MAX_SPEED
        (Ball._OnHit K b gameMode car)._internalState.hsInfo ∧
      (0 ≤ K.Heatseeker.TARGET_SPEED_INCREMENT →
        b._internalState.hsInfo.curTargetSpeed
          ≤ (Ball._OnHit K b gameMode car)._internalState.hsInfo.curTargetSpeed) := by
  by_cases hm : gameMode = GameMode.HEATSEEKER
  · subst hm
    rw [Ball.onHit_hsInfo]
    have hteam : (if car.team = Team.BLUE then (1 : F) else -1) = -1 ∨
        (if car.team = Team.BLUE then (1 : F) else -1) = 0 ∨
        (if car.team = Team.BLUE then (1 : F) else -1) = 1 := by
      split
      · exact Or.inr (Or.inr rfl)
      · exact Or.inl rfl
    split
    · refine ⟨⟨hteam, RS_MIN_le_right _ _⟩, fun hinc => ?_⟩
      simp only
      rw [RS_MIN_eq_min]
      exact le_min (le_add_of_nonneg_right hinc) hwf.2
    · exact ⟨⟨hteam, hwf.2⟩, fun _ => le_refl _⟩
  · have e : Ball._OnHit K b gameMode car = b := by
      simp only [Ball._OnHit, if_neg hm]
    rw [e]
    exact ⟨hwf, fun _ => le_refl _⟩

/-- C18: from a well-formed homing sub-state (`yTargetDir` one of -1, 0, 1 and
`curTargetSpeed <= Heatseeker::MAX_SPEED`) the sub-state is well-formed again after each of
`_PreTickUpdate`, `_OnHit`, `_OnWorldCollision`, `_FinishPhysicsTick` and `GetState`, in
every game mode and for every argument; and with `TARGET_SPEED_INCREMENT >= 0` none of
them decreases `curTargetSpeed`. -/
theorem wellFormed_preserved [FloorRing F] (K : RLConst F) (M : MathOps F) (b : Ball F)
    (gameMode : GameMode) (tickTime : F) (car : Car) (normal : Vec F) (cfg : MutatorConfig F)
    (hwf : HeatseekerInfo.WellFormed K.Heatseeker.MAX_SPEED b._internalState.hsInfo) :
    (HeatseekerInfo.WellFormed K.Heatseeker.MAX_SPEED
        (Ball._PreTickUpdate K M b gameMode tickTime)._internalState.hsInfo ∧
      HeatseekerInfo.WellFormed K.Heatseeker.MAX_SPEED
        (Ball._OnHit K b gameMode car)._internalState.hsInfo ∧
      HeatseekerInfo.WellFormed K.Heatseeker.MAX_SPEED
        (Ball._OnWorldCollision K b gameMode normal)._internalState.hsInfo ∧
      HeatseekerInfo.WellFormed K.Heatseeker.MAX_SPEED
        (Ball._FinishPhysicsTick K M.sqrt b cfg)._internalState.hsInfo ∧
      HeatseekerInfo.WellFormed K.Heatseeker.MAX_SPEED
        (Ball.GetState K b).2._internalState.hsInfo ∧
      HeatseekerInfo.WellFormed K.Heatseeker.MAX_SPEED (Ball.GetState K b).1.hsInfo) ∧
    (0 ≤ K.Heatseeker.TARGET_SPEED_INCREMENT →
      b._internalState.hsInfo.curTargetSpeed
          ≤ (Ball._PreTickUpdate K M b gameMode tickTime)._internalState.hsInfo.curTargetSpeed ∧
        b._internalState.hsInfo.curTargetSpeed
          ≤ (Ball._OnHit K b gameMode car)._internalState.hsInfo.curTargetSpeed ∧
        b._internalState.hsInfo.curTargetSpeed
          ≤ (Ball._OnWorldCollision K b gameMode normal)._internalState.hsInfo.curTargetSpeed ∧
        b._internalState.hsInfo.curTargetSpeed
          ≤ (Ball._FinishPhysicsTick K M.sqrt b cfg)._internalState.hsInfo.curTargetSpeed ∧
        b._internalState.hsInfo.curTargetSpeed
          ≤ (Ball.GetState K b).2._internalState.hsInfo.curTargetSpeed) := by
  have hpre := Ball.preTickUpdate_target K M b gameMode tickTime
  have hhit := Ball.onHit_wellFormed K b gameMode car hwf
  have hwall := Ball.onWorldCollision_frame K b gameMode normal
  have hfin : (Ball._FinishPhysicsTick K M.sqrt b cfg)._internalState = b._internalState := by
    rw [Ball.finishPhysicsTick_eq]
    unfold Ball.physicsRounding Ball.limitVelocities Ball.addVelocityCache
    split <;> split <;> rfl
  have hwallwf : HeatseekerInfo.WellFormed K.Heatseeker.MAX_SPEED
      (Ball._OnWorldCollision K b gameMode normal)._internalState.hsInfo := by
    refine ⟨?_, by rw [hwall.2.1]; exact hwf.2⟩
    rcases hwall.1 with e | e
    · rw [e]
      exact hwf.1
    · rw [e]
      rcases hwf.1 with h | h | h
      · right; right; rw [h, neg_neg]
      · right; left; rw [h, neg_zero]
      · left; rw [h]
  refine ⟨⟨⟨by rw [hpre.1]; exact hwf.1, by rw [hpre.2]; exact hwf.2⟩, hhit.1, hwallwf,
    by rw [hfin]; exact hwf, hwf, hwf⟩, fun hinc => ?_⟩
  exact ⟨le_of_eq hpre.2.symm, hhit.2 hinc, le_of_eq hwall.2.1.symm,
    le_of_eq (by rw [hfin]), le_refl _⟩

/-- C18, at the sample ball (`yTargetDir = 1`, `curTargetSpeed = 2900 <= 4600`) in
HEATSEEKER mode: the sub-state is well-formed after a pre-tick, whatever the math helpers
compute, and after a hit by an ORANGE car, which does not decrease the target speed. -/
theorem wellFormed_preserved_witness :
    HeatseekerInfo.WellFormed (defaultConst ℚ).Heatseeker.MAX_SPEED
      (sampleBall ℚ)._internalState.hsInfo ∧
    ∀ M : MathOps ℚ,
      HeatseekerInfo.WellFormed (defaultConst ℚ).Heatseeker.MAX_SPEED
        (Ball._PreTickUpdate (defaultConst ℚ) M (sampleBall ℚ) GameMode.HEATSEEKER
          (1 / 120))._internalState.hsInfo ∧
      HeatseekerInfo.WellFormed (defaultConst ℚ).Heatseeker.MAX_SPEED
        (Ball._OnHit (defaultConst ℚ) (sampleBall ℚ) GameMode.HEATSEEKER
          ⟨Team.ORANGE⟩)._internalState.hsInfo ∧
      (sampleBall ℚ)._internalState.hsInfo.curTargetSpeed
        ≤ (Ball._OnHit (defaultConst ℚ) (sampleBall ℚ) GameMode.HEATSEEKER
            ⟨Team.ORANGE⟩)._internalState.hsInfo.curTargetSpeed := by
  have hwf : HeatseekerInfo.WellFormed (defaultConst ℚ).Heatseeker.MAX_SPEED
      (sampleBall ℚ)._internalState.hsInfo := by
    norm_num [HeatseekerInfo.WellFormed, sampleBall, sampleState, defaultConst]
  refine ⟨hwf, fun M => ?_⟩
  have h := wellFormed_preserved (defaultConst ℚ) M (sampleBall ℚ) GameMode.HEATSEEKER (1 / 120)
    ⟨Team.ORANGE⟩ ⟨0, -1, 0⟩ ⟨6000, false⟩ hwf
  exact ⟨h.1.1, h.1.2.1, (h.2 (by norm_num [defaultConst])).2.1⟩

end WellFormedness

/-! ## The clamp in detail -/

section Clamp

variable {F : Type} [LinearOrderedField F]

theorem sqrt_mul_self_of_nonneg (sqrt : F → F)
    (hsqrt : ∀ x, 0 ≤ x → 0 ≤ sqrt x ∧ sqrt x * sqrt x = x) (m : F) (hm : 0 ≤ m) :
    sqrt (m * m) = m := by
  obtain ⟨h0, h1⟩ := hsqrt (m * m) (mul_self_nonneg m)
  apply le_antisymm
  · exact sqrt_le_of_le_mul_self sqrt hsqrt _ _ (mul_self_nonneg m) hm (le_refl _)
  · by_contra hlt
    have h2 : sqrt (m * m) * sqrt (m * m) < m * m := mul_self_lt_mul_self h0 (not_le.mp hlt)
    rw [h1] at h2
    exact lt_irrefl _ h2

theorem Vec.length_mul_self (sqrt : F → F)
    (hsqrt : ∀ x, 0 ≤ x → 0 ≤ sqrt x ∧ sqrt x * sqrt x = x) (v : Vec F) :
    Vec.length sqrt v * Vec.length sqrt v = Vec.length2 v :=
  (hsqrt _ (Vec.length2_nonneg v)).2

theorem Vec.length_ne_zero_of_lt (sqrt : F → F)
    (hsqrt : ∀ x, 0 ≤ x → 0 ≤ sqrt x ∧ sqrt x * sqrt x = x) (v : Vec F) (m : F)
    (h : m * m < Vec.length2 v) : Vec.length sqrt v ≠ 0 := by
  intro hz
  have h1 := Vec.length_mul_self sqrt hsqrt v
  rw [hz, mul_zero] at h1
  rw [← h1] at h
  exact absurd h (not_lt.mpr (mul_self_nonneg m))

theorem Vec.ne_zero_of_lt (v : Vec F) (m : F) (h : m * m < Vec.length2 v) :
    v ≠ ⟨0, 0, 0⟩ := by
  intro hz
  rw [hz] at h
  simp only [Vec.length2, mul_zero, add_zero] at h
  exact absurd h (not_lt.mpr (mul_self_nonneg m))

theorem Ball.limitVelocities_of_le (K : RLConst F) (sqrt : F → F) (cfg : MutatorConfig F)
    (b : Ball F)
    (h1 : Vec.length2 b._rigidBody.m_linearVelocity
      ≤ cfg.ballMaxSpeed * K.UU_TO_BT * (cfg.ballMaxSpeed * K.UU_TO_BT))
    (h2 : Vec.length2 b._rigidBody.m_angularVelocity
      ≤ K.BALL_MAX_ANG_SPEED * K.BALL_MAX_ANG_SPEED) :
    Ball.limitVelocities K sqrt cfg b = b := by
  simp only [Ball.limitVelocities, gt_iff_lt, if_neg (not_lt.mpr h1), if_neg (not_lt.mpr h2)]

theorem Ball.limitVelocities_frame (K : RLConst F) (sqrt : F → F) (cfg : MutatorConfig F)
    (b : Ball F) :
    (Ball.limitVelocities K sqrt cfg b)._internalState = b._internalState ∧
      (Ball.limitVelocities K sqrt cfg b)._rigidBody.m_worldTransform
        = b._rigidBody.m_worldTransform :=
  ⟨rfl, rfl⟩

theorem Ball.addVelocityCache_frame (b : Ball F) :
    (Ball.addVelocityCache b)._internalState = b._internalState ∧
      (Ball.addVelocityCache b)._rigidBody.m_worldTransform = b._rigidBody.m_worldTransform ∧
      (Ball.addVelocityCache b)._rigidBody.m_angularVelocity
        = b._rigidBody.m_angularVelocity := by
  unfold Ball.addVelocityCache
  split <;> exact ⟨rfl, rfl, rfl⟩

theorem Vec.normalizedChecked_of_lt (sqrt : F → F)
    (hsqrt : ∀ x, 0 ≤ x → 0 ≤ sqrt x ∧ sqrt x * sqrt x = x) (v : Vec F) (m : F)
    (h : m * m < Vec.length2 v) :
    Vec.normalizedChecked sqrt v = some (Vec.normalized sqrt v) := by
  unfold Vec.normalizedChecked
  rw [if_neg (Vec.length_ne_zero_of_lt sqrt hsqrt v m h)]
  rfl

theorem Ball.limitVelocitiesChecked_eq (K : RLConst F) (sqrt : F → F)
    (hsqrt : ∀ x, 0 ≤ x → 0 ≤ sqrt x ∧ sqrt x * sqrt x = x) (cfg : MutatorConfig F)
    (b : Ball F) :
    Ball.limitVelocitiesChecked K sqrt cfg b = some (Ball.limitVelocities K sqrt cfg b) := by
  unfold Ball.limitVelocitiesChecked Ball.limitVelocities
  by_cases h1 : cfg.ballMaxSpeed * K.UU_TO_BT * (cfg.ballMaxSpeed * K.UU_TO_BT)
      < Vec.length2 b._rigidBody.m_linearVelocity
  · by_cases h2 : K.BALL_MAX_ANG_SPEED * K.BALL_MAX_ANG_SPEED
        < Vec.length2 b._rigidBody.m_angularVelocity
    · simp only [gt_iff_lt, if_pos h1, if_pos h2,
        Vec.normalizedChecked_of_lt sqrt hsqrt _ _ h1,
        Vec.normalizedChecked_of_lt sqrt hsqrt _ _ h2, Option.map_some']
    · simp only [gt_iff_lt, if_pos h1, if_neg h2,
        Vec.normalizedChecked_of_lt sqrt hsqrt _ _ h1, Option.map_some']
  · by_cases h2 : K.BALL_MAX_ANG_SPEED * K.BALL_MAX_ANG_SPEED
        < Vec.length2 b._rigidBody.m_angularVelocity
    · simp only [gt_iff_lt, if_neg h1, if_pos h2,
        Vec.normalizedChecked_of_lt sqrt hsqrt _ _ h2, Option.map_some']
    · simp only [gt_iff_lt, if_neg h1, if_neg h2]

theorem Ball.limitVelocities_zero (K : RLConst F) (sqrt : F → F) (cfg : MutatorConfig F)
    (b : Ball F) :
    (b._rigidBody.m_linearVelocity = ⟨0, 0, 0⟩ →
      (Ball.limitVelocities K sqrt cfg b)._rigidBody.m_linearVelocity = ⟨0, 0, 0⟩) ∧
    (b._rigidBody.m_angularVelocity = ⟨0, 0, 0⟩ →
      (Ball.limitVelocities K sqrt cfg b)._rigidBody.m_angularVelocity = ⟨0, 0, 0⟩) := by
  constructor
  · intro h
    have hn : ¬ cfg.ballMaxSpeed * K.UU_TO_BT * (cfg.ballMaxSpeed * K.UU_TO_BT)
        < Vec.length2 b._rigidBody.m_linearVelocity :=
      fun hlt => Vec.ne_zero_of_lt _ _ hlt h
    simp only [Ball.limitVelocities, gt_iff_lt, if_neg hn]
    exact h
  · intro h
    have hn : ¬ K.BALL_MAX_ANG_SPEED * K.BALL_MAX_ANG_SPEED
        < Vec.length2 b._rigidBody.m_angularVelocity :=
      fun hlt => Vec.ne_zero_of_lt _ _ hlt h
    simp only [Ball.limitVelocities, gt_iff_lt, if_neg hn]
    exact h

/-- C14: for every linear and angular velocity and every `ballMaxSpeed` (0 and the zero
vector included), the clamp of `_FinishPhysicsTick` normalizes a vector only when it is
non-zero: a vector whose squared length exceeds a square is not the zero vector and its
length, the divisor, is not 0, so `_FinishPhysicsTick` with the divisions checked always
returns, and returns the ball `_FinishPhysicsTick` computes; a zero velocity is left at
zero by the clamp. -/
theorem clamp_never_divides_by_zero [FloorRing F] (K : RLConst F) (sqrt : F → F)
    (hsqrt : ∀ x, 0 ≤ x → 0 ≤ sqrt x ∧ sqrt x * sqrt x = x) (b : Ball F)
    (cfg : MutatorConfig F) :
    Ball._FinishPhysicsTickChecked K sqrt b cfg = some (Ball._FinishPhysicsTick K sqrt b cfg) ∧
    (∀ (v : Vec F) (m : F), Vec.length2 v > m * m →
      v ≠ ⟨0, 0, 0⟩ ∧ Vec.length sqrt v ≠ 0 ∧
        Vec.normalizedChecked sqrt v = some (Vec.normalized sqrt v)) ∧
    ((Ball.addVelocityCache b)._rigidBody.m_linearVelocity = ⟨0, 0, 0⟩ →
      (Ball.limitVelocities K sqrt cfg
        (Ball.addVelocityCache b))._rigidBody.m_linearVelocity = ⟨0, 0, 0⟩) ∧
    ((Ball.addVelocityCache b)._rigidBody.m_angularVelocity = ⟨0, 0, 0⟩ →
      (Ball.limitVelocities K sqrt cfg
        (Ball.addVelocityCache b))._rigidBody.m_angularVelocity = ⟨0, 0, 0⟩) := by
  refine ⟨?_, ?_, Ball.limitVelocities_zero K sqrt cfg _⟩
  · unfold Ball._FinishPhysicsTickChecked
    rw [Ball.limitVelocitiesChecked_eq K sqrt hsqrt, Option.map_some', Ball.finishPhysicsTick_eq]
  · intro v m h
    exact ⟨Vec.ne_zero_of_lt v m h, Vec.length_ne_zero_of_lt sqrt hsqrt v m h,
      Vec.normalizedChecked_of_lt sqrt hsqrt v m h⟩

/-- C14, over the reals with the real square root: with `ballMaxSpeed = 0` the checked
`_FinishPhysicsTick` returns both for a ball at rest (zero vectors, nothing normalized) and
for the ball moving at (300, 400, 0). -/
theorem clamp_never_divides_by_zero_witness :
    Ball._FinishPhysicsTickChecked (defaultConst ℝ) Real.sqrt (kickoffBall ℝ) ⟨0, false⟩
        = some (Ball._FinishPhysicsTick (defaultConst ℝ) Real.sqrt (kickoffBall ℝ) ⟨0, false⟩) ∧
      Ball._FinishPhysicsTickChecked (defaultConst ℝ) Real.sqrt (fastBall ℝ) ⟨0, false⟩
        = some (Ball._FinishPhysicsTick (defaultConst ℝ) Real.sqrt (fastBall ℝ) ⟨0, false⟩) :=
  ⟨(clamp_never_divides_by_zero (defaultConst ℝ) Real.sqrt
      (fun x hx => ⟨Real.sqrt_nonneg x, Real.mul_self_sqrt hx⟩) (kickoffBall ℝ) ⟨0, false⟩).1,
    (clamp_never_divides_by_zero (defaultConst ℝ) Real.sqrt
      (fun x hx => ⟨Real.sqrt_nonneg x, Real.mul_self_sqrt hx⟩) (fastBall ℝ) ⟨0, false⟩).1⟩

/-- C20, amended: in exact arithmetic (an exact square root and no rounding of the
operations), with rounding disabled, `_FinishPhysicsTick` run twice in a row leaves the
ball (engine position and velocities, impulse cache, cached state) exactly as run once,
for every engine state, pending impulse and `ballMaxSpeed`; and it changes neither the
engine position nor the cached `BallState`. -/
theorem finishPhysicsTick_idempotent [FloorRing F] (K : RLConst F) (sqrt : F → F)
    (hsqrt : ∀ x, 0 ≤ x → 0 ≤ sqrt x ∧ sqrt x * sqrt x = x) (b : Ball F)
    (cfg : MutatorConfig F) (hr : cfg.enablePhysicsRounding = false) :
    Ball._FinishPhysicsTick K sqrt (Ball._FinishPhysicsTick K sqrt b cfg) cfg
      = Ball._FinishPhysicsTick K sqrt b cfg ∧
    (Ball._FinishPhysicsTick K sqrt b cfg)._rigidBody.m_worldTransform.m_origin
      = b._rigidBody.m_worldTransform.m_origin ∧
    (Ball._FinishPhysicsTick K sqrt b cfg)._rigidBody.m_worldTransform
      = b._rigidBody.m_worldTransform ∧
    (Ball._FinishPhysicsTick K sqrt b cfg)._internalState = b._internalState := by
  have e1 : Ball._FinishPhysicsTick K sqrt b cfg
      = Ball.limitVelocities K sqrt cfg (Ball.addVelocityCache b) := by
    rw [Ball.finishPhysicsTick_eq, Ball.physicsRounding_of_disabled K cfg _ hr]
  have hb := Ball.limitVelocities_bounds K sqrt hsqrt cfg (Ball.addVelocityCache b)
  have hc : (Ball.limitVelocities K sqrt cfg (Ball.addVelocityCache b))._velocityImpulseCache
      = ⟨0, 0, 0⟩ := by
    rw [Ball.limitVelocities_cache, Ball.addVelocityCache_cache]
  have hf := Ball.limitVelocities_frame K sqrt cfg (Ball.addVelocityCache b)
  have ha := Ball.addVelocityCache_frame b
  refine ⟨?_, ?_, ?_, ?_⟩
  · rw [e1, Ball.finishPhysicsTick_eq, Ball.physicsRounding_of_disabled K cfg _ hr,
      Ball.addVelocityCache_of_zero _ hc, Ball.limitVelocities_of_le K sqrt cfg _ hb.1 hb.2]
  · rw [e1, hf.2, ha.2.1]
  · rw [e1, hf.2, ha.2.1]
  · rw [e1, hf.1, ha.1]

/-- C20 amended, over the reals with the real square root, at the ball moving at (300, 400, 0)
above the cap: a second `_FinishPhysicsTick` without rounding changes nothing. -/
theorem finishPhysicsTick_idempotent_witness :
    Ball._FinishPhysicsTick (defaultConst ℝ) Real.sqrt
        (Ball._FinishPhysicsTick (defaultConst ℝ) Real.sqrt (fastBall ℝ) ⟨6000, false⟩)
        ⟨6000, false⟩
      = Ball._FinishPhysicsTick (defaultConst ℝ) Real.sqrt (fastBall ℝ) ⟨6000, false⟩ :=
  (finishPhysicsTick_idempotent (defaultConst ℝ) Real.sqrt
    (fun x hx => ⟨Real.sqrt_nonneg x, Real.mul_self_sqrt hx⟩) (fastBall ℝ) ⟨6000, false⟩ rfl).1

end Clamp

/-! ## Speed blending of the homing pre-tick -/

section SpeedBlend

variable {F : Type} [LinearOrderedField F]

theorem Vec.length2_scale (d : Vec F) (k : F) :
    Vec.length2 (Vec.scale d k) = k * k * Vec.length2 d := by
  simp only [Vec.length2, Vec.scale]
  ring

theorem Vec.length_scale_unit (sqrt : F → F)
    (hsqrt : ∀ x, 0 ≤ x → 0 ≤ sqrt x ∧ sqrt x * sqrt x = x) (d : Vec F) (k : F)
    (hd : Vec.length sqrt d = 1) (hk : 0 ≤ k) : Vec.length sqrt (Vec.scale d k) = k := by
  have h1 : Vec.length2 d = 1 := by
    rw [← Vec.length_mul_self sqrt hsqrt d, hd, mul_one]
  unfold Vec.length
  rw [Vec.length2_scale, h1, mul_one]
  exact sqrt_mul_self_of_nonneg sqrt hsqrt k hk

theorem Ball.preTickUpdate_linearVelocity (K : RLConst F) (M : MathOps F) (b : Ball F)
    (tickTime : F) (hy : b._internalState.hsInfo.yTargetDir ≠ 0) :
    ∃ newAngle : Angle F,
      (Ball._PreTickUpdate K M b GameMode.HEATSEEKER tickTime)._rigidBody.m_linearVelocity
        = Vec.scale
            (Vec.scale (M.GetForwardVec newAngle)
              (Vec.length M.sqrt (Ball.GetState K b).1.vel
                + (b._internalState.hsInfo.curTargetSpeed
                    - Vec.length M.sqrt (Ball.GetState K b).1.vel) * K.Heatseeker.SPEED_BLEND))
            K.UU_TO_BT := by
  have hy2 : (Ball.GetState K b).2._internalState.hsInfo.yTargetDir ≠ 0 := hy
  simp only [Ball._PreTickUpdate, if_true, if_pos hy2]
  exact ⟨_, rfl⟩

/-- C17: in HEATSEEKER mode with `yTargetDir != 0`, with `c` the length of the velocity in
simulation units, `t = curTargetSpeed` and `c + (t - c) * SPEED_BLEND >= 0`, assuming that
`Angle::GetForwardVec` returns unit vectors (and `UU_TO_BT * BT_TO_UU = 1`): after
`_PreTickUpdate` the engine linear velocity converted back to simulation units, which is
the `vel` that `GetState()` returns, has length exactly `c + (t - c) * SPEED_BLEND`,
whatever the position, the tick time and the turn; and with `0 <= SPEED_BLEND <= 1` this
new speed lies between `c` and `t`. -/
theorem preTickUpdate_speed (K : RLConst F) (M : MathOps F) (b : Ball F) (tickTime : F)
    (hsqrt : ∀ x, 0 ≤ x → 0 ≤ M.sqrt x ∧ M.sqrt x * M.sqrt x = x)
    (hunit : ∀ a : Angle F, Vec.length M.sqrt (M.GetForwardVec a) = 1)
    (hK : K.UU_TO_BT * K.BT_TO_UU = 1)
    (hy : b._internalState.hsInfo.yTargetDir ≠ 0)
    (hnn : 0 ≤ Vec.length M.sqrt (Vec.scale b._rigidBody.m_linearVelocity K.BT_TO_UU)
      + (b._internalState.hsInfo.curTargetSpeed
          - Vec.length M.sqrt (Vec.scale b._rigidBody.m_linearVelocity K.BT_TO_UU))
        * K.Heatseeker.SPEED_BLEND) :
    let c := Vec.length M.sqrt (Vec.scale b._rigidBody.m_linearVelocity K.BT_TO_UU)
    let t := b._internalState.hsInfo.curTargetSpeed
    let b' := Ball._PreTickUpdate K M b GameMode.HEATSEEKER tickTime
    Vec.length M.sqrt (Vec.scale b'._rigidBody.m_linearVelocity K.BT_TO_UU)
        = c + (t - c) * K.Heatseeker.SPEED_BLEND ∧
      Vec.length M.sqrt (Ball.GetState K b').1.vel = c + (t - c) * K.Heatseeker.SPEED_BLEND ∧
      (0 ≤ K.Heatseeker.SPEED_BLEND → K.Heatseeker.SPEED_BLEND ≤ 1 →
        min c t ≤ c + (t - c) * K.Heatseeker.SPEED_BLEND ∧
          c + (t - c) * K.Heatseeker.SPEED_BLEND ≤ max c t) := by
  intro c t b'
  have hlen : Vec.length M.sqrt (Vec.scale b'._rigidBody.m_linearVelocity K.BT_TO_UU)
      = c + (t - c) * K.Heatseeker.SPEED_BLEND := by
    obtain ⟨ang, hv⟩ := Ball.preTickUpdate_linearVelocity K M b tickTime hy
    simp only [b']
    rw [hv, Vec.scale_scale_cancel _ _ _ hK]
    exact Vec.length_scale_unit M.sqrt hsqrt _ _ (hunit ang) hnn
  refine ⟨hlen, hlen, ?_⟩
  intro h0 h1
  generalize K.Heatseeker.SPEED_BLEND = β at h0 h1
  rcases le_total c t with hct | hct
  · rw [min_eq_left hct, max_eq_right hct]
    constructor <;> nlinarith
  · rw [min_eq_right hct, max_eq_left hct]
    constructor <;> nlinarith

/-- C17, over the reals with the real square root and a `GetForwardVec` built from sine
and cosine: for the sample ball (500 uu/s, target speed 2900) the speed after
`_PreTickUpdate` is 500 + (2900 - 500) * 0.3 = 1220 uu/s. -/
theorem preTickUpdate_speed_witness :
    ∃ M : MathOps ℝ,
      M.sqrt = Real.sqrt ∧
      (∀ a : Angle ℝ, Vec.length M.sqrt (M.GetForwardVec a) = 1) ∧
      Vec.length M.sqrt
        (Ball.GetState (defaultConst ℝ)
          (Ball._PreTickUpdate (defaultConst ℝ) M (sampleBall ℝ) GameMode.HEATSEEKER
            (1 / 120))).1.vel = 1220 := by
  have hunit : ∀ a : Angle ℝ,
      Vec.length Real.sqrt
        (⟨Real.cos a.pitch * Real.cos a.yaw, Real.cos a.pitch * Real.sin a.yaw,
          Real.sin a.pitch⟩ : Vec ℝ) = 1 := by
    intro a
    unfold Vec.length
    rw [Real.sqrt_eq_one]
    simp only [Vec.length2]
    have h1 := Real.sin_sq_add_cos_sq a.yaw
    have h2 := Real.sin_sq_add_cos_sq a.pitch
    linear_combination (Real.cos a.pitch ^ 2) * h1 + h2
  have hc : Vec.length Real.sqrt
      (Vec.scale (sampleBall ℝ)._rigidBody.m_linearVelocity (defaultConst ℝ).BT_TO_UU) = 500 := by
    unfold Vec.length
    rw [Real.sqrt_eq_iff_mul_self_eq (Vec.length2_nonneg _) (by norm_num)]
    norm_num [sampleBall, defaultConst, Vec.scale, Vec.length2]
  refine ⟨⟨Real.sqrt, fun v => ⟨Real.arctan (v.y / v.x), Real.arctan v.z, 0⟩,
    fun p q => ⟨p.yaw - q.yaw, p.pitch - q.pitch, p.roll - q.roll⟩, fun p => p,
    fun a => ⟨Real.cos a.pitch * Real.cos a.yaw, Real.cos a.pitch * Real.sin a.yaw,
      Real.sin a.pitch⟩⟩, rfl, hunit, ?_⟩
  have h := preTickUpdate_speed (defaultConst ℝ)
    ⟨Real.sqrt, fun v => ⟨Real.arctan (v.y / v.x), Real.arctan v.z, 0⟩,
      fun p q => ⟨p.yaw - q.yaw, p.pitch - q.pitch, p.roll - q.roll⟩, fun p => p,
      fun a => ⟨Real.cos a.pitch * Real.cos a.yaw, Real.cos a.pitch * Real.sin a.yaw,
        Real.sin a.pitch⟩⟩
    (sampleBall ℝ) (1 / 120)
    (fun x hx => ⟨Real.sqrt_nonneg x, Real.mul_self_sqrt hx⟩) hunit
    (by norm_num [defaultConst]) (by norm_num [sampleBall, sampleState])
    (by
      simp only [hc]
      norm_num [sampleBall, sampleState, defaultConst])
  have h2 := h.2.1
  simp only [hc] at h2
  rw [h2]
  norm_num [sampleBall, sampleState, defaultConst]

end SpeedBlend

/-! ## Evaluating the float32 operations -/

section Float32Eval

theorem roundHalfEven_eq (y : ℚ) (n : ℤ) (h1 : (n : ℚ) - 1 / 2 < y) (h2 : y < n + 1 / 2) :
    roundHalfEven y = n := by
  unfold roundHalfEven
  by_cases hy : (n : ℚ) ≤ y
  · have hf : ⌊y⌋ = n := Int.floor_eq_iff.mpr ⟨hy, by linarith⟩
    rw [hf, if_pos (by linarith)]
  · have hy2 : y < n := not_le.mp hy
    have hf : ⌊y⌋ = n - 1 :=
      Int.floor_eq_iff.mpr ⟨by push_cast; linarith, by push_cast; linarith⟩
    rw [hf]
    have h3 : ¬ (y - ((n - 1 : ℤ) : ℚ) < 1 / 2) := by
      push_cast
      linarith
    have h4 : 1 / 2 < y - ((n - 1 : ℤ) : ℚ) := by
      push_cast
      linarith
    rw [if_neg h3, if_pos h4]
    ring

theorem log2_eq (x : ℚ) (e : ℤ) (hx : 0 < x) (h1 : (2 : ℚ) ^ e ≤ x) (h2 : x < 2 ^ (e + 1)) :
    Int.log 2 x = e := by
  apply le_antisymm
  · have h3 : x < ((2 : ℕ) : ℚ) ^ (e + 1) := by
      rw [Nat.cast_ofNat]
      exact h2
    have h4 := (Int.lt_zpow_iff_log_lt (by norm_num : 1 < 2) hx).mp h3
    omega
  · have h3 : ((2 : ℕ) : ℚ) ^ e ≤ x := by
      rw [Nat.cast_ofNat]
      exact h1
    exact (Int.zpow_le_iff_le_log (by norm_num : 1 < 2) hx).mp h3

/-- The value of `f32 x` from the binade `e` of `x` and the integer `n` nearest to
`x / 2 ^ (e - 23)`. -/
theorem f32_eval (x y : ℚ) (e n : ℤ) (hx : x ≠ 0) (h1 : (2 : ℚ) ^ e ≤ |x|)
    (h2 : |x| < 2 ^ (e + 1)) (hmin : -126 ≤ e) (hn1 : (n : ℚ) - 1 / 2 < x / 2 ^ (e - 23))
    (hn2 : x / 2 ^ (e - 23) < n + 1 / 2) (hy : y = n * 2 ^ (e - 23)) : f32 x = y := by
  unfold f32 fl
  rw [if_neg hx, log2_eq |x| e (abs_pos.mpr hx) h1 h2, max_eq_left hmin]
  have h24 : e - (((24 : ℕ) : ℤ) - 1) = e - 23 := by norm_num
  rw [h24, roundHalfEven_eq _ n hn1 hn2, hy]

/-- The value of `sqrtf x` when the square root lies in the lower half of its grid cell. -/
theorem sqrtf_eval_down (x y : ℚ) (e er : ℤ) (n : ℕ) (hx : 0 < x) (h1 : (2 : ℚ) ^ e ≤ x)
    (h2 : x < 2 ^ (e + 1)) (her1 : 2 * er ≤ e) (her2 : e < 2 * er + 2)
    (hn1 : (n : ℚ) * n ≤ x / (2 ^ (er - 23) * 2 ^ (er - 23)))
    (hn2 : x / (2 ^ (er - 23) * 2 ^ (er - 23)) < ((n : ℚ) + 1 / 2) ^ 2)
    (hy : y = n * 2 ^ (er - 23)) : sqrtf x = y := by
  unfold sqrtf
  have hfl : ⌊((e : ℤ) : ℚ) / 2⌋ = er := by
    rw [Int.floor_eq_iff]
    have h3 : ((2 * er : ℤ) : ℚ) ≤ e := by exact_mod_cast her1
    have h4 : (e : ℚ) < ((2 * er + 2 : ℤ) : ℚ) := by exact_mod_cast her2
    push_cast at h3 h4
    constructor <;> linarith
  rw [if_neg (not_le.mpr hx), log2_eq x e hx h1 h2, hfl]
  have hq : 0 ≤ x / (2 ^ (er - 23) * 2 ^ (er - 23)) :=
    le_trans (mul_self_nonneg (n : ℚ)) hn1
  have hs : Nat.sqrt ⌊x / (2 ^ (er - 23) * 2 ^ (er - 23))⌋₊ = n := by
    symm
    rw [Nat.eq_sqrt]
    constructor
    · apply Nat.le_floor
      push_cast
      exact hn1
    · rw [Nat.floor_lt hq]
      push_cast
      have h5 : ((n : ℚ) + 1 / 2) ^ 2 ≤ (n + 1) * (n + 1) := by
        have h6 : (0 : ℚ) ≤ n := Nat.cast_nonneg n
        nlinarith
      linarith
  rw [hs, if_pos hn2, hy]

/-- The value of `sqrtf x` when the square root lies in the upper half of its grid cell. -/
theorem sqrtf_eval_up (x y : ℚ) (e er : ℤ) (n : ℕ) (hx : 0 < x) (h1 : (2 : ℚ) ^ e ≤ x)
    (h2 : x < 2 ^ (e + 1)) (her1 : 2 * er ≤ e) (her2 : e < 2 * er + 2)
    (hn1 : ((n : ℚ) + 1 / 2) ^ 2 ≤ x / (2 ^ (er - 23) * 2 ^ (er - 23)))
    (hn2 : x / (2 ^ (er - 23) * 2 ^ (er - 23)) < ((n : ℚ) + 1) * (n + 1))
    (hy : y = (n + 1) * 2 ^ (er - 23)) : sqrtf x = y := by
  unfold sqrtf
  have hfl : ⌊((e : ℤ) : ℚ) / 2⌋ = er := by
    rw [Int.floor_eq_iff]
    have h3 : ((2 * er : ℤ) : ℚ) ≤ e := by exact_mod_cast her1
    have h4 : (e : ℚ) < ((2 * er + 2 : ℤ) : ℚ) := by exact_mod_cast her2
    push_cast at h3 h4
    constructor <;> linarith
  rw [if_neg (not_le.mpr hx), log2_eq x e hx h1 h2, hfl]
  have h6 : (0 : ℚ) ≤ n := Nat.cast_nonneg n
  have hq : 0 ≤ x / (2 ^ (er - 23) * 2 ^ (er - 23)) := le_trans (sq_nonneg _) hn1
  have hs : Nat.sqrt ⌊x / (2 ^ (er - 23) * 2 ^ (er - 23))⌋₊ = n := by
    symm
    rw [Nat.eq_sqrt]
    constructor
    · apply Nat.le_floor
      push_cast
      nlinarith
    · rw [Nat.floor_lt hq]
      push_cast
      exact hn2
  rw [hs, if_neg (not_lt.mpr hn1), hy]

theorem f32_eval_pos (x y : ℚ) (e n : ℤ) (hx : 0 < x) (h1 : (2 : ℚ) ^ e ≤ x)
    (h2 : x < 2 ^ (e + 1)) (hmin : -126 ≤ e) (hn1 : (n : ℚ) - 1 / 2 < x / 2 ^ (e - 23))
    (hn2 : x / 2 ^ (e - 23) < n + 1 / 2) (hy : y = n * 2 ^ (e - 23)) : f32 x = y :=
  f32_eval x y e n (ne_of_gt hx) (by rw [abs_of_pos hx]; exact h1)
    (by rw [abs_of_pos hx]; exact h2) hmin hn1 hn2 hy

theorem f32_eval_neg (x y : ℚ) (e n : ℤ) (hx : x < 0) (h1 : (2 : ℚ) ^ e ≤ -x)
    (h2 : -x < 2 ^ (e + 1)) (hmin : -126 ≤ e) (hn1 : (n : ℚ) - 1 / 2 < x / 2 ^ (e - 23))
    (hn2 : x / 2 ^ (e - 23) < n + 1 / 2) (hy : y = n * 2 ^ (e - 23)) : f32 x = y :=
  f32_eval x y e n (ne_of_lt hx) (by rw [abs_of_neg hx]; exact h1)
    (by rw [abs_of_neg hx]; exact h2) hmin hn1 hn2 hy

theorem f32_zero : f32 0 = 0 := by
  simp [f32, fl]

/-- One `_FinishPhysicsTick` in `float`, without rounding, on the ball moving at
(14, -56, 112): the speed 126 is above the cap 120 and the velocity is rescaled to
(13.33333397, -53.33333588, 106.66667175). -/
theorem Ball.finishPhysicsTickF32_overCap :
    Ball._FinishPhysicsTickF32 defaultConstF32 (overCapBall ℚ) ⟨6000, false⟩
      = ⟨sampleState ℚ,
          ⟨btTransform.identity, ⟨6990507 / 524288, -(6990507 / 131072), 6990507 / 65536⟩,
            ⟨0, 0, 0⟩⟩,
          ⟨0, 0, 0⟩⟩ := by
  have h1 : f32 (6000 * (5368709 / 268435456)) = 120 :=
    f32_eval_pos _ _ (6) (15728640) (by norm_num) (by norm_num) (by norm_num)
      (by norm_num) (by norm_num) (by norm_num) (by norm_num)
  have h2 : f32 (14 * 14) = 196 :=
    f32_eval_pos _ _ (7) (12845056) (by norm_num) (by norm_num) (by norm_num)
      (by norm_num) (by norm_num) (by norm_num) (by norm_num)
  have h3 : f32 ((-56) * (-56)) = 3136 :=
    f32_eval_pos _ _ (11) (12845056) (by norm_num) (by norm_num) (by norm_num)
      (by norm_num) (by norm_num) (by norm_num) (by norm_num)
  have h4 : f32 (112 * 112) = 12544 :=
    f32_eval_pos _ _ (13) (12845056) (by norm_num) (by norm_num) (by norm_num)
      (by norm_num) (by norm_num) (by norm_num) (by norm_num)
  have h5 : f32 (196 + 3136) = 3332 :=
    f32_eval_pos _ _ (11) (13647872) (by norm_num) (by norm_num) (by norm_num)
      (by norm_num) (by norm_num) (by norm_num) (by norm_num)
  have h6 : f32 (3332 + 12544) = 15876 :=
    f32_eval_pos _ _ (13) (16257024) (by norm_num) (by norm_num) (by norm_num)
      (by norm_num) (by norm_num) (by norm_num) (by norm_num)
  have h7 : f32 (120 * 120) = 14400 :=
    f32_eval_pos _ _ (13) (14745600) (by norm_num) (by norm_num) (by norm_num)
      (by norm_num) (by norm_num) (by norm_num) (by norm_num)
  have h8 : sqrtf (15876) = 126 :=
    sqrtf_eval_down _ _ (13) (6) 16515072 (by norm_num) (by norm_num) (by norm_num)
      (by norm_num) (by norm_num) (by norm_num) (by norm_num) (by norm_num)
  have h9 : f32 (1 / 126) = 8521761 / 1073741824 :=
    f32_eval_pos _ _ (-7) (8521761) (by norm_num) (by norm_num) (by norm_num)
      (by norm_num) (by norm_num) (by norm_num) (by norm_num)
  have h10 : f32 (14 * (8521761 / 1073741824)) = 7456541 / 67108864 :=
    f32_eval_pos _ _ (-4) (14913082) (by norm_num) (by norm_num) (by norm_num)
      (by norm_num) (by norm_num) (by norm_num) (by norm_num)
  have h11 : f32 ((-56) * (8521761 / 1073741824)) = -(7456541 / 16777216) :=
    f32_eval_neg _ _ (-2) (-14913082) (by norm_num) (by norm_num) (by norm_num)
      (by norm_num) (by norm_num) (by norm_num) (by norm_num)
  have h12 : f32 (112 * (8521761 / 1073741824)) = 7456541 / 8388608 :=
    f32_eval_pos _ _ (-1) (14913082) (by norm_num) (by norm_num) (by norm_num)
      (by norm_num) (by norm_num) (by norm_num) (by norm_num)
  have h13 : f32 ((7456541 / 67108864) * 120) = 6990507 / 524288 :=
    f32_eval_pos _ _ (3) (13981014) (by norm_num) (by norm_num) (by norm_num)
      (by norm_num) (by norm_num) (by norm_num) (by norm_num)
  have h14 : f32 ((-(7456541 / 16777216)) * 120) = -(6990507 / 131072) :=
    f32_eval_neg _ _ (5) (-13981014) (by norm_num) (by norm_num) (by norm_num)
      (by norm_num) (by norm_num) (by norm_num) (by norm_num)
  have h15 : f32 ((7456541 / 8388608) * 120) = 6990507 / 65536 :=
    f32_eval_pos _ _ (6) (13981014) (by norm_num) (by norm_num) (by norm_num)
      (by norm_num) (by norm_num) (by norm_num) (by norm_num)
  have h16 : f32 (6 * 6) = 36 :=
    f32_eval_pos _ _ (5) (9437184) (by norm_num) (by norm_num) (by norm_num)
      (by norm_num) (by norm_num) (by norm_num) (by norm_num)
  have c1 : (14400 : ℚ) < 15876 := by norm_num
  have c2 : ¬ ((36 : ℚ) < 0) := by norm_num
  have e1 : Ball.addVelocityCacheF32 (overCapBall ℚ) = overCapBall ℚ := by
    simp [Ball.addVelocityCacheF32, overCapBall, Vec.IsZero]
  unfold Ball._FinishPhysicsTickF32
  rw [e1]
  simp only [Ball.physicsRoundingF32, Bool.false_eq_true, if_false, Ball.limitVelocitiesF32,
    overCapBall, defaultConstF32, defaultConst, Vec.length2F32, Vec.lengthF32,
    Vec.normalizedF32, Vec.scaleF32, gt_iff_lt, mul_zero, add_zero, f32_zero,
    h1, h2, h3, h4, h5, h6, h7, h8, h9, h10, h11, h12, h13, h14, h15, h16, c1, c2, if_true]

theorem Vec.length2F32_zero : Vec.length2F32 ⟨0, 0, 0⟩ = 0 := by
  simp only [Vec.length2F32, mul_zero, add_zero, f32_zero]

/-- The squared length and the length that `float` arithmetic finds for the velocity left
by the first tick: 14400.001953125 and 120.00000762939453. -/
theorem Vec.lengthF32_overCap_clamped :
    Vec.length2F32 ⟨6990507 / 524288, -(6990507 / 131072), 6990507 / 65536⟩ = 7372801 / 512 ∧
      Vec.lengthF32 ⟨6990507 / 524288, -(6990507 / 131072), 6990507 / 65536⟩
        = 15728641 / 131072 := by
  have h2 : f32 ((6990507 / 524288) * (6990507 / 524288)) = 5825423 / 32768 :=
    f32_eval_pos _ _ (7) (11650846) (by norm_num) (by norm_num) (by norm_num)
      (by norm_num) (by norm_num) (by norm_num) (by norm_num)
  have h3 : f32 ((-(6990507 / 131072)) * (-(6990507 / 131072))) = 5825423 / 2048 :=
    f32_eval_pos _ _ (11) (11650846) (by norm_num) (by norm_num) (by norm_num)
      (by norm_num) (by norm_num) (by norm_num) (by norm_num)
  have h4 : f32 ((6990507 / 65536) * (6990507 / 65536)) = 5825423 / 512 :=
    f32_eval_pos _ _ (13) (11650846) (by norm_num) (by norm_num) (by norm_num)
      (by norm_num) (by norm_num) (by norm_num) (by norm_num)
  have h5 : f32 ((5825423 / 32768) + (5825423 / 2048)) = 773689 / 256 :=
    f32_eval_pos _ _ (11) (12379024) (by norm_num) (by norm_num) (by norm_num)
      (by norm_num) (by norm_num) (by norm_num) (by norm_num)
  have h6 : f32 ((773689 / 256) + (5825423 / 512)) = 7372801 / 512 :=
    f32_eval_pos _ _ (13) (14745602) (by norm_num) (by norm_num) (by norm_num)
      (by norm_num) (by norm_num) (by norm_num) (by norm_num)
  have h8 : sqrtf (7372801 / 512) = 15728641 / 131072 :=
    sqrtf_eval_down _ _ (13) (6) 15728641 (by norm_num) (by norm_num) (by norm_num)
      (by norm_num) (by norm_num) (by norm_num) (by norm_num) (by norm_num)
  have hl : Vec.length2F32 ⟨6990507 / 524288, -(6990507 / 131072), 6990507 / 65536⟩
      = 7372801 / 512 := by
    simp only [Vec.length2F32, h2, h3, h4, h5, h6]
  refine ⟨hl, ?_⟩
  unfold Vec.lengthF32
  rw [hl, h8]

/-- A second `_FinishPhysicsTick` in `float`, without rounding: the velocity left by the
first one tests above the cap (14400.00195 > 14400) and is rescaled again, to
(13.33333302, -53.33333206, 106.66666412). -/
theorem Ball.finishPhysicsTickF32_overCap_again :
    Ball._FinishPhysicsTickF32 defaultConstF32
        ⟨sampleState ℚ,
          ⟨btTransform.identity, ⟨6990507 / 524288, -(6990507 / 131072), 6990507 / 65536⟩,
            ⟨0, 0, 0⟩⟩,
          ⟨0, 0, 0⟩⟩
        ⟨6000, false⟩
      = ⟨sampleState ℚ,
          ⟨btTransform.identity, ⟨13981013 / 1048576, -(13981013 / 262144), 13981013 / 131072⟩,
            ⟨0, 0, 0⟩⟩,
          ⟨0, 0, 0⟩⟩ := by
  have h1 : f32 (6000 * (5368709 / 268435456)) = 120 :=
    f32_eval_pos _ _ (6) (15728640) (by norm_num) (by norm_num) (by norm_num)
      (by norm_num) (by norm_num) (by norm_num) (by norm_num)
  have h7 : f32 (120 * 120) = 14400 :=
    f32_eval_pos _ _ (13) (14745600) (by norm_num) (by norm_num) (by norm_num)
      (by norm_num) (by norm_num) (by norm_num) (by norm_num)
  have h9 : f32 (1 / (15728641 / 131072)) = 1118481 / 134217728 :=
    f32_eval_pos _ _ (-7) (8947848) (by norm_num) (by norm_num) (by norm_num)
      (by norm_num) (by norm_num) (by norm_num) (by norm_num)
  have h10 : f32 ((6990507 / 524288) * (1118481 / 134217728)) = 14913081 / 134217728 :=
    f32_eval_pos _ _ (-4) (14913081) (by norm_num) (by norm_num) (by norm_num)
      (by norm_num) (by norm_num) (by norm_num) (by norm_num)
  have h11 : f32 ((-(6990507 / 131072)) * (1118481 / 134217728)) = -(14913081 / 33554432) :=
    f32_eval_neg _ _ (-2) (-14913081) (by norm_num) (by norm_num) (by norm_num)
      (by norm_num) (by norm_num) (by norm_num) (by norm_num)
  have h12 : f32 ((6990507 / 65536) * (1118481 / 134217728)) = 14913081 / 16777216 :=
    f32_eval_pos _ _ (-1) (14913081) (by norm_num) (by norm_num) (by norm_num)
      (by norm_num) (by norm_num) (by norm_num) (by norm_num)
  have h13 : f32 ((14913081 / 134217728) * 120) = 13981013 / 1048576 :=
    f32_eval_pos _ _ (3) (13981013) (by norm_num) (by norm_num) (by norm_num)
      (by norm_num) (by norm_num) (by norm_num) (by norm_num)
  have h14 : f32 ((-(14913081 / 33554432)) * 120) = -(13981013 / 262144) :=
    f32_eval_neg _ _ (5) (-13981013) (by norm_num) (by norm_num) (by norm_num)
      (by norm_num) (by norm_num) (by norm_num) (by norm_num)
  have h15 : f32 ((14913081 / 16777216) * 120) = 13981013 / 131072 :=
    f32_eval_pos _ _ (6) (13981013) (by norm_num) (by norm_num) (by norm_num)
      (by norm_num) (by norm_num) (by norm_num) (by norm_num)
  have h16 : f32 (6 * 6) = 36 :=
    f32_eval_pos _ _ (5) (9437184) (by norm_num) (by norm_num) (by norm_num)
      (by norm_num) (by norm_num) (by norm_num) (by norm_num)
  have c1 : (14400 : ℚ) < 7372801 / 512 := by norm_num
  have c2 : ¬ ((36 : ℚ) < 0) := by norm_num
  have e1 : Ball.addVelocityCacheF32
      (⟨sampleState ℚ,
        ⟨btTransform.identity, ⟨6990507 / 524288, -(6990507 / 131072), 6990507 / 65536⟩,
          ⟨0, 0, 0⟩⟩,
        ⟨0, 0, 0⟩⟩ : Ball ℚ)
      = ⟨sampleState ℚ,
        ⟨btTransform.identity, ⟨6990507 / 524288, -(6990507 / 131072), 6990507 / 65536⟩,
          ⟨0, 0, 0⟩⟩,
        ⟨0, 0, 0⟩⟩ := by
    simp [Ball.addVelocityCacheF32, Vec.IsZero]
  unfold Ball._FinishPhysicsTickF32
  rw [e1]
  simp only [Ball.physicsRoundingF32, Bool.false_eq_true, if_false, Ball.limitVelocitiesF32,
    defaultConstF32, defaultConst, Vec.lengthF32_overCap_clamped.1,
    Vec.lengthF32_overCap_clamped.2, Vec.length2F32_zero,
    Vec.normalizedF32, Vec.scaleF32, gt_iff_lt,
    h1, h7, h9, h10, h11, h12, h13, h14, h15, h16, c1, c2, if_true]

end Float32Eval

/-! ## The clamp in float32: what exact arithmetic hides -/

section Float32Clamp

/-- C20 as stated fails in the `float` arithmetic of `Ball.cpp`: with rounding disabled,
from engine velocity (14, -56, 112) with no impulse, the first `_FinishPhysicsTick`
leaves (13.33333397, -53.33333588, 106.66667175), which tests above the cap again, and
the second one moves it to (13.33333302, -53.33333206, 106.66666412). -/
theorem finishPhysicsTick_idempotent_counterexample :
    (⟨6000, false⟩ : MutatorConfig ℚ).enablePhysicsRounding = false ∧
    (Ball._FinishPhysicsTickF32 defaultConstF32 (overCapBall ℚ)
        ⟨6000, false⟩)._rigidBody.m_linearVelocity
      = ⟨6990507 / 524288, -(6990507 / 131072), 6990507 / 65536⟩ ∧
    (Ball._FinishPhysicsTickF32 defaultConstF32
        (Ball._FinishPhysicsTickF32 defaultConstF32 (overCapBall ℚ) ⟨6000, false⟩)
        ⟨6000, false⟩)._rigidBody.m_linearVelocity
      = ⟨13981013 / 1048576, -(13981013 / 262144), 13981013 / 131072⟩ ∧
    Ball._FinishPhysicsTickF32 defaultConstF32
        (Ball._FinishPhysicsTickF32 defaultConstF32 (overCapBall ℚ) ⟨6000, false⟩)
        ⟨6000, false⟩
      ≠ Ball._FinishPhysicsTickF32 defaultConstF32 (overCapBall ℚ) ⟨6000, false⟩ := by
  rw [Ball.finishPhysicsTickF32_overCap, Ball.finishPhysicsTickF32_overCap_again]
  refine ⟨rfl, rfl, rfl, ?_⟩
  intro h
  have hx := congrArg (fun b : Ball ℚ => b._rigidBody.m_linearVelocity.x) h
  simp only at hx
  norm_num at hx

/-- C2 as stated fails twice over. In exact arithmetic with rounding enabled: with the
constants of `RLConst.h` and `ballMaxSpeed = 6000` (cap 120 in engine units), the engine
velocity (72.00011, 95.99991, 0) is below the cap and is not rescaled, and the
quantization step then moves it to (72.0002, 96, 0), whose length is above 120. In the
`float` arithmetic of `Ball.cpp` with rounding disabled: the engine velocity
(14, -56, 112) is rescaled to (13.33333397, -53.33333588, 106.66667175), whose squared
length 14400.00137... is above the squared cap 14400, as `float` arithmetic itself finds
(14400.00195 > 14400). -/
theorem finishPhysicsTick_speed_cap_counterexample :
    ((0 : ℝ) ≤ (⟨6000, true⟩ : MutatorConfig ℝ).ballMaxSpeed ∧
      (Ball._FinishPhysicsTick (defaultConst ℝ) Real.sqrt (nearCapBall ℝ)
        ⟨6000, true⟩)._rigidBody.m_linearVelocity = ⟨360001 / 5000, 96, 0⟩ ∧
      (⟨6000, true⟩ : MutatorConfig ℝ).ballMaxSpeed * (defaultConst ℝ).UU_TO_BT
        < Vec.length Real.sqrt
            (Ball._FinishPhysicsTick (defaultConst ℝ) Real.sqrt (nearCapBall ℝ)
              ⟨6000, true⟩)._rigidBody.m_linearVelocity) ∧
    ((0 : ℚ) ≤ (⟨6000, false⟩ : MutatorConfig ℚ).ballMaxSpeed ∧
      f32 ((⟨6000, false⟩ : MutatorConfig ℚ).ballMaxSpeed * defaultConstF32.UU_TO_BT) = 120 ∧
      (⟨6000, false⟩ : MutatorConfig ℚ).ballMaxSpeed * defaultConstF32.UU_TO_BT ≤ 120 ∧
      120 * 120
        < Vec.length2
            (Ball._FinishPhysicsTickF32 defaultConstF32 (overCapBall ℚ)
              ⟨6000, false⟩)._rigidBody.m_linearVelocity ∧
      f32 (120 * 120)
        < Vec.length2F32
            (Ball._FinishPhysicsTickF32 defaultConstF32 (overCapBall ℚ)
              ⟨6000, false⟩)._rigidBody.m_linearVelocity) := by
  refine ⟨Ball.finishPhysicsTick_nearCap_rounded, ?_⟩
  have hM : f32 ((⟨6000, false⟩ : MutatorConfig ℚ).ballMaxSpeed * defaultConstF32.UU_TO_BT)
      = 120 := by
    simp only [defaultConstF32]
    exact f32_eval_pos _ _ (6) (15728640) (by norm_num) (by norm_num) (by norm_num)
      (by norm_num) (by norm_num) (by norm_num) (by norm_num)
  have hMM : f32 (120 * 120) = 14400 :=
    f32_eval_pos _ _ (13) (14745600) (by norm_num) (by norm_num) (by norm_num)
      (by norm_num) (by norm_num) (by norm_num) (by norm_num)
  have hl : Vec.length2F32
      (⟨sampleState ℚ,
        ⟨btTransform.identity, ⟨6990507 / 524288, -(6990507 / 131072), 6990507 / 65536⟩,
          ⟨0, 0, 0⟩⟩,
        ⟨0, 0, 0⟩⟩ : Ball ℚ)._rigidBody.m_linearVelocity = 7372801 / 512 :=
    Vec.lengthF32_overCap_clamped.1
  rw [Ball.finishPhysicsTickF32_overCap, hMM, hl]
  refine ⟨by norm_num, hM, ?_, ?_, ?_⟩
  · norm_num [defaultConstF32]
  · norm_num [Vec.length2]
  · norm_num

end Float32Clamp

end RocketSim
